import Mathlib

/-!
Geometry3D: narrow-phase 3D intersection queries

A shallow embedding of `Chapter07/Physics/Geometry3D.cpp`.  The scalar type
`float` is idealised as an arbitrary linearly ordered field `α` (so every
definition runs on `ℚ`), `fminf`/`fmaxf`/`fabsf` are `min`/`max`/`abs`, and the
one place that takes a square root receives the root function as an argument.
Overloaded C++ functions are told apart by the namespace of their first shape
argument (`AABB.ClosestPoint`, `OBB.ClosestPoint`, ...).

The source is read twice.  The first reading takes every arithmetic operation
as exact.  The second, in the namespace `Rounded`, passes the result of every
operation through a rounding function; with `fl32`, rounding to the nearest
single-precision number, it follows the compiled program, and with the identity
it is the first reading again.  Where a property states an exact equality or
equivalence between computed values that rounding breaks, the second reading
supplies an input on which it fails in single precision, and the property is
then stated, for any rounding, of the calls that are free of rounding error:
those that return in the second reading what they return in the first.
-/

namespace Geometry3D

variable {α : Type} [LinearOrderedField α]

/-! ## Vector and matrix types (declared in the headers, not in the source file) -/

/-- Modelled from the spec: `Vector3`, an ordered triple of scalars (x, y, z); its
declaration lives in a header that is not part of the sources. -/
structure vec3 (α : Type) where
  x : α
  y : α
  z : α
deriving DecidableEq, Repr

/-- Modelled from the spec: `Point` is a type alias for `Vector3`. -/
abbrev Point (α : Type) := vec3 α

/-- Modelled from the spec: component access `v[i]` / `v.asArray[i]` of a vector. -/
def vec3.asArray (v : vec3 α) (i : Nat) : α :=
  match i with
  | 0 => v.x
  | 1 => v.y
  | _ => v.z

/-- Modelled from the spec: vector addition. -/
instance : Add (vec3 α) := ⟨fun a b => ⟨a.x + b.x, a.y + b.y, a.z + b.z⟩⟩

/-- Modelled from the spec: vector subtraction. -/
instance : Sub (vec3 α) := ⟨fun a b => ⟨a.x - b.x, a.y - b.y, a.z - b.z⟩⟩

/-- Modelled from the spec: scalar multiplication `v * f`. -/
instance : HMul (vec3 α) α (vec3 α) := ⟨fun a f => ⟨a.x * f, a.y * f, a.z * f⟩⟩

/-- Modelled from the spec: dot product of two vectors. -/
def Dot (l r : vec3 α) : α := l.x * r.x + l.y * r.y + l.z * r.z

/-- Modelled from the spec: cross product of two vectors. -/
def Cross (l r : vec3 α) : vec3 α :=
  ⟨l.y * r.z - l.z * r.y, l.z * r.x - l.x * r.z, l.x * r.y - l.y * r.x⟩

/-- Modelled from the spec: squared magnitude, the dot product of a vector with itself. -/
def MagnitudeSq (v : vec3 α) : α := Dot v v

/-- Modelled from the spec: a 3×3 matrix stored row by row, whose rows are the
local X/Y/Z axes of an oriented box. -/
structure mat3 (α : Type) where
  _11 : α
  _12 : α
  _13 : α
  _21 : α
  _22 : α
  _23 : α
  _31 : α
  _32 : α
  _33 : α
deriving DecidableEq, Repr

/-- Modelled from the spec: the nine entries of a matrix as a flat row-major array. -/
def mat3.asArray (m : mat3 α) (i : Nat) : α :=
  match i with
  | 0 => m._11
  | 1 => m._12
  | 2 => m._13
  | 3 => m._21
  | 4 => m._22
  | 5 => m._23
  | 6 => m._31
  | 7 => m._32
  | _ => m._33

/-! ## Shapes -/

/-- Modelled from the spec: finite segment between the points `start` and `end`. -/
structure Line (α : Type) where
  start : Point α
  «end» : Point α
deriving DecidableEq, Repr

/-- Modelled from the spec: ray with `origin` and (unit) `direction`. -/
structure Ray (α : Type) where
  origin : Point α
  direction : vec3 α
deriving DecidableEq, Repr

/-- Modelled from the spec: sphere with centre `position` and `radius`. -/
structure Sphere (α : Type) where
  position : Point α
  radius : α
deriving DecidableEq, Repr

/-- Modelled from the spec: axis-aligned box with centre `position` and half-extents `size`. -/
structure AABB (α : Type) where
  position : Point α
  size : vec3 α
deriving DecidableEq, Repr

/-- Modelled from the spec: oriented box with centre, half-extents and a rotation
matrix whose rows are the local axes. -/
structure OBB (α : Type) where
  position : Point α
  size : vec3 α
  orientation : mat3 α
deriving DecidableEq, Repr

/-- Modelled from the spec: plane `dot(p, normal) = distance`. -/
structure Plane (α : Type) where
  normal : vec3 α
  distance : α
deriving DecidableEq, Repr

/-- Modelled from the spec: scalar range produced by projecting a box on an axis. -/
structure Interval (α : Type) where
  min : α
  max : α
deriving DecidableEq, Repr

/-! ## The source file -/

/-- Modelled from the spec: the epsilon of single precision floats (`FLT_EPSILON`
of `<cfloat>`), 2⁻²³. -/
def FLT_EPSILON : α := 1 / 8388608

/-- The macro `CMP(x, y)`: scale-relative approximate equality. -/
def CMP (x y : α) : Bool :=
  decide (|x - y| ≤ FLT_EPSILON * max 1 (max |x| |y|))

/-- `GetMin`: component-wise smaller corner of `position ± size`. -/
def GetMin (aabb : AABB α) : vec3 α :=
  let p1 := aabb.position + aabb.size
  let p2 := aabb.position - aabb.size
  ⟨min p1.x p2.x, min p1.y p2.y, min p1.z p2.z⟩

/-- `GetMax`: component-wise larger corner of `position ± size`. -/
def GetMax (aabb : AABB α) : vec3 α :=
  let p1 := aabb.position + aabb.size
  let p2 := aabb.position - aabb.size
  ⟨max p1.x p2.x, max p1.y p2.y, max p1.z p2.z⟩

/-- `PlaneEquation(point, plane)`. -/
def PlaneEquation (point : Point α) (plane : Plane α) : α :=
  Dot point plane.normal - plane.distance

/-- `PointOnPlane(point, plane)`. -/
def PointOnPlane (point : Point α) (plane : Plane α) : Bool :=
  CMP (Dot point plane.normal - plane.distance) 0

/-- `PointInAABB(point, aabb)`, with the comparisons exactly as the source has them
(the second one compares `point.x` with `min.y`). -/
def PointInAABB (point : Point α) (aabb : AABB α) : Bool :=
  let min := GetMin aabb
  let max := GetMax aabb
  if point.x < min.x ∨ point.x < min.y ∨ point.z < min.z then false
  else if point.x > max.x ∨ point.y > max.y ∨ point.z > max.z then false
  else true

/-- `PointInOBB(point, obb)`: the loop over the three local axes, leaving with
`false` at the first axis on which the projected distance is out of range. -/
def PointInOBB (point : Point α) (obb : OBB α) : Bool :=
  let dir := point - obb.position
  [0, 1, 2].all fun i =>
    let axis : vec3 α :=
      ⟨obb.orientation.asArray (i * 3), obb.orientation.asArray (i * 3 + 1),
        obb.orientation.asArray (i * 3 + 2)⟩
    let distance := Dot dir axis
    if distance > obb.size.asArray i then false
    else if distance < -obb.size.asArray i then false
    else true

/-- `ClosestPoint(aabb, point)`, with the comparisons exactly as the source has
them (the y and z coordinates are compared with `min.x` and `max.x`). -/
def AABB.ClosestPoint (aabb : AABB α) (point : Point α) : Point α :=
  let min := GetMin aabb
  let max := GetMax aabb
  let x1 := if point.x < min.x then min.x else point.x
  let y1 := if point.y < min.x then min.y else point.y
  let z1 := if point.z < min.x then min.z else point.z
  let x2 := if x1 > max.x then max.x else x1
  let y2 := if y1 > max.x then max.y else y1
  let z2 := if z1 > max.x then max.z else z1
  ⟨x2, y2, z2⟩

/-- `ClosestPoint(obb, point)`: starting at the centre, accumulate along each local
axis the projection of `point - center` clamped to the half-extent. -/
def OBB.ClosestPoint (obb : OBB α) (point : Point α) : Point α :=
  let dir := point - obb.position
  [0, 1, 2].foldl (fun result i =>
    let axis : vec3 α :=
      ⟨obb.orientation.asArray (i * 3), obb.orientation.asArray (i * 3 + 1),
        obb.orientation.asArray (i * 3 + 2)⟩
    let distance := Dot dir axis
    let distance := if distance > obb.size.asArray i then obb.size.asArray i else distance
    let distance := if distance < -obb.size.asArray i then -obb.size.asArray i else distance
    result + axis * distance) obb.position

/-- `ClosestPoint(plane, point)`. -/
def Plane.ClosestPoint (plane : Plane α) (point : Point α) : Point α :=
  let distance := Dot plane.normal point - plane.distance
  point - plane.normal * distance

/-- `AABBAABB(aabb1, aabb2)`: range overlap on the three world axes. -/
def AABBAABB (aabb1 aabb2 : AABB α) : Bool :=
  let aMin := GetMin aabb1
  let aMax := GetMax aabb1
  let bMin := GetMin aabb2
  let bMax := GetMax aabb2
  decide ((aMin.x ≤ bMax.x ∧ aMax.x ≥ bMin.x) ∧
    (aMin.y ≤ bMax.y ∧ aMax.y ≥ bMin.y) ∧
    (aMin.z ≤ bMax.z ∧ aMax.z ≥ bMin.z))

/-- `GetInterval(obb, axis)`: project the eight vertices of the oriented box on
`axis` and keep the smallest and the largest projection. -/
def OBB.GetInterval (obb : OBB α) (axis : vec3 α) : Interval α :=
  let C := obb.position
  let E := obb.size.asArray
  let o := obb.orientation.asArray
  let A : Nat → vec3 α := fun i =>
    match i with
    | 0 => ⟨o 0, o 1, o 2⟩
    | 1 => ⟨o 3, o 4, o 5⟩
    | _ => ⟨o 6, o 7, o 8⟩
  let vertex0 := C + A 0 * E 0 + A 1 * E 1 + A 2 * E 2
  let vertex : List (vec3 α) :=
    [C - A 0 * E 0 + A 1 * E 1 + A 2 * E 2,
     C + A 0 * E 0 - A 1 * E 1 + A 2 * E 2,
     C + A 0 * E 0 + A 1 * E 1 - A 2 * E 2,
     C - A 0 * E 0 - A 1 * E 1 - A 2 * E 2,
     C + A 0 * E 0 - A 1 * E 1 - A 2 * E 2,
     C - A 0 * E 0 + A 1 * E 1 - A 2 * E 2,
     C - A 0 * E 0 - A 1 * E 1 + A 2 * E 2]
  vertex.foldl (fun result v =>
    let projection := Dot axis v
    ⟨if projection < result.min then projection else result.min,
     if projection > result.max then projection else result.max⟩)
    ⟨Dot axis vertex0, Dot axis vertex0⟩

/-- `GetInterval(aabb, axis)`: project the eight corners of the axis-aligned box
on `axis` and keep the smallest and the largest projection. -/
def AABB.GetInterval (aabb : AABB α) (axis : vec3 α) : Interval α :=
  let i := GetMin aabb
  let a := GetMax aabb
  let vertex0 : vec3 α := ⟨i.x, a.y, a.z⟩
  let vertex : List (vec3 α) :=
    [⟨i.x, a.y, i.z⟩,
     ⟨i.x, i.y, a.z⟩,
     ⟨i.x, i.y, i.z⟩,
     ⟨a.x, a.y, a.z⟩,
     ⟨a.x, a.y, i.z⟩,
     ⟨a.x, i.y, a.z⟩,
     ⟨a.x, i.y, i.z⟩]
  vertex.foldl (fun result v =>
    let projection := Dot axis v
    ⟨if projection < result.min then projection else result.min,
     if projection > result.max then projection else result.max⟩)
    ⟨Dot axis vertex0, Dot axis vertex0⟩

/-- `OverlapOnAxis(aabb, obb, axis)`. -/
def AABB.OverlapOnAxis (aabb : AABB α) (obb : OBB α) (axis : vec3 α) : Bool :=
  let a := aabb.GetInterval axis
  let b := obb.GetInterval axis
  decide (b.min ≤ a.max ∧ a.min ≤ b.max)

/-- `OverlapOnAxis(obb1, obb2, axis)`, as the source has it: both intervals are
taken from `obb1`. -/
def OBB.OverlapOnAxis (obb1 _obb2 : OBB α) (axis : vec3 α) : Bool :=
  let a := obb1.GetInterval axis
  let b := obb1.GetInterval axis
  decide (b.min ≤ a.max ∧ a.min ≤ b.max)

/-- `AABBOBB(aabb, obb)`: the fifteen test axes as the source fills them (entries
6..14 are `Cross(test[i], test[0..2])` for `i = 0, 1, 2`), then the loop that
leaves with `false` at the first axis without overlap. -/
def AABBOBB (aabb : AABB α) (obb : OBB α) : Bool :=
  let o := obb.orientation.asArray
  let test : Nat → vec3 α := fun i =>
    match i with
    | 0 => ⟨1, 0, 0⟩
    | 1 => ⟨0, 1, 0⟩
    | 2 => ⟨0, 0, 1⟩
    | 3 => ⟨o 0, o 1, o 2⟩
    | 4 => ⟨o 3, o 4, o 5⟩
    | _ => ⟨o 6, o 7, o 8⟩
  let axes : List (vec3 α) :=
    [test 0, test 1, test 2, test 3, test 4, test 5] ++
      [0, 1, 2].flatMap fun i =>
        [Cross (test i) (test 0), Cross (test i) (test 1), Cross (test i) (test 2)]
  axes.all fun axis => aabb.OverlapOnAxis obb axis

/-- `OBBOBB(obb1, obb2)`: the fifteen test axes as the source fills them (entries
6..14 are `Cross(test[i], test[0..2])` for `i = 0, 1, 2`), then the loop that
leaves with `false` at the first axis without overlap. -/
def OBBOBB (obb1 obb2 : OBB α) : Bool :=
  let o1 := obb1.orientation.asArray
  let o2 := obb2.orientation.asArray
  let test : Nat → vec3 α := fun i =>
    match i with
    | 0 => ⟨o1 0, o1 1, o1 2⟩
    | 1 => ⟨o1 3, o1 4, o1 5⟩
    | 2 => ⟨o1 6, o1 7, o1 8⟩
    | 3 => ⟨o2 0, o2 1, o2 2⟩
    | 4 => ⟨o2 3, o2 4, o2 5⟩
    | _ => ⟨o2 6, o2 7, o2 8⟩
  let axes : List (vec3 α) :=
    [test 0, test 1, test 2, test 3, test 4, test 5] ++
      [0, 1, 2].flatMap fun i =>
        [Cross (test i) (test 0), Cross (test i) (test 1), Cross (test i) (test 2)]
  axes.all fun axis => obb1.OverlapOnAxis obb2 axis

/-- `Raycast(sphere, ray)`.  The square root of `<cmath>` is the argument `sqrt`;
it is taken before the branch on the sign of its argument, as in the source. -/
def Sphere.Raycast (sqrt : α → α) (sphere : Sphere α) (ray : Ray α) : α :=
  let e := sphere.position - ray.origin
  let rSq := sphere.radius * sphere.radius
  let eSq := MagnitudeSq e
  let a := Dot e ray.direction
  let bSq := eSq - a * a
  let f := sqrt (rSq - bSq)
  if rSq - (eSq - a * a) < 0 then -1
  else if eSq < rSq then a + f
  else a - f

/-- `ClosestPoint(line, point)`: project on the line through the end points and
clamp the parameter to `[0, 1]`. -/
def Line.ClosestPoint (line : Line α) (point : Point α) : Point α :=
  let lVec := line.«end» - line.start
  let t := Dot (point - line.start) lVec / Dot lVec lVec
  let t := max t 0
  let t := min t 1
  line.start + lVec * t

/-- `SphereSphere(s1, s2)`. -/
def SphereSphere (s1 s2 : Sphere α) : Bool :=
  let radiiSum := s1.radius + s2.radius
  let sqDistance := MagnitudeSq (s1.position - s2.position)
  decide (sqDistance < radiiSum * radiiSum)

/-- `PlanePlane(plane1, plane2)`. -/
def PlanePlane (plane1 plane2 : Plane α) : Bool :=
  let d := Cross plane1.normal plane2.normal
  !(CMP (Dot d d) 0)

/-- `Raycast(obb, ray)`, the branch of the source that is compiled (`#if 1`).
Each pass of the loop over the three local axes either leaves the function with
-1 (here `none`) or stores the two slab parameters `t[2i]`, `t[2i+1]`; the passes
do not depend on each other, and the second test of the early exit reads `e.x`
for every axis, as in the source. -/
def OBB.Raycast (obb : OBB α) (ray : Ray α) : α :=
  let o := obb.orientation.asArray
  let size := obb.size.asArray
  let p := obb.position - ray.origin
  let X : vec3 α := ⟨o 0, o 1, o 2⟩
  let Y : vec3 α := ⟨o 3, o 4, o 5⟩
  let Z : vec3 α := ⟨o 6, o 7, o 8⟩
  let f : vec3 α := ⟨Dot X ray.direction, Dot Y ray.direction, Dot Z ray.direction⟩
  let e : vec3 α := ⟨Dot X p, Dot Y p, Dot Z p⟩
  let pass : Nat → Option (α × α) := fun i =>
    if CMP (f.asArray i) 0 then
      if -e.asArray i - size i > 0 ∨ -e.x + size i < 0 then none
      else some ((e.asArray i + size i) / (1 / 100000), (e.asArray i - size i) / (1 / 100000))
    else some ((e.asArray i + size i) / f.asArray i, (e.asArray i - size i) / f.asArray i)
  match pass 0, pass 1, pass 2 with
  | some (t0, t1), some (t2, t3), some (t4, t5) =>
    let tmin := max (max (min t0 t1) (min t2 t3)) (min t4 t5)
    let tmax := min (min (max t0 t1) (max t2 t3)) (max t4 t5)
    if tmax < 0 then -1
    else if tmin > tmax then -1
    else if tmin < 0 then tmax
    else tmin
  | _, _, _ => -1

/-- `Raycast(aabb, ray)`: slab method on the world axes, dividing by `0.00001`
where a direction component is approximately zero. -/
def AABB.Raycast (aabb : AABB α) (ray : Ray α) : α :=
  let min_ := GetMin aabb
  let max_ := GetMax aabb
  let t1 := (min_.x - ray.origin.x) / (if CMP ray.direction.x 0 then 1 / 100000 else ray.direction.x)
  let t2 := (max_.x - ray.origin.x) / (if CMP ray.direction.x 0 then 1 / 100000 else ray.direction.x)
  let t3 := (min_.y - ray.origin.y) / (if CMP ray.direction.y 0 then 1 / 100000 else ray.direction.y)
  let t4 := (max_.y - ray.origin.y) / (if CMP ray.direction.y 0 then 1 / 100000 else ray.direction.y)
  let t5 := (min_.z - ray.origin.z) / (if CMP ray.direction.z 0 then 1 / 100000 else ray.direction.z)
  let t6 := (max_.z - ray.origin.z) / (if CMP ray.direction.z 0 then 1 / 100000 else ray.direction.z)
  let tmin := max (max (min t1 t2) (min t3 t4)) (min t5 t6)
  let tmax := min (min (max t1 t2) (max t3 t4)) (max t5 t6)
  if tmax < 0 then -1
  else if tmin > tmax then -1
  else if tmin < 0 then tmax
  else tmin

/-- `Raycast(plane, ray)`. -/
def Plane.Raycast (plane : Plane α) (ray : Ray α) : α :=
  let nd := Dot ray.direction plane.normal
  let pn := Dot ray.origin plane.normal
  if nd ≥ 0 then -1
  else
    let t := (plane.distance - pn) / nd
    if t ≥ 0 then t else -1

/-- `Linetest(sphere, line)`. -/
def Sphere.Linetest (sphere : Sphere α) (line : Line α) : Bool :=
  let closest := line.ClosestPoint sphere.position
  let distSq := MagnitudeSq (sphere.position - closest)
  decide (distSq ≤ sphere.radius * sphere.radius)

/-- `Linetest(plane, line)`. -/
def Plane.Linetest (plane : Plane α) (line : Line α) : Bool :=
  let ab := line.«end» - line.start
  let nA := Dot plane.normal line.start
  let nAB := Dot plane.normal ab
  if CMP nAB 0 then false
  else
    let t := (plane.distance - nA) / nAB
    decide (t ≥ 0 ∧ t ≤ 1)

/-- `AABBPlane(aabb, plane)`: the half-extents projected on the plane normal
against the distance of the centre from the plane. -/
def AABBPlane (aabb : AABB α) (plane : Plane α) : Bool :=
  let pLen := aabb.size.x * |plane.normal.x| +
    aabb.size.y * |plane.normal.y| +
    aabb.size.z * |plane.normal.z|
  let dist := Dot plane.normal aabb.position - plane.distance
  decide (|dist| ≤ pLen)

/-- `OBBPlane(obb, plane)`: the half-extents projected on the plane normal along
the three rows of the orientation, against the distance of the centre from the
plane. -/
def OBBPlane (obb : OBB α) (plane : Plane α) : Bool :=
  let o := obb.orientation.asArray
  let rot : Nat → vec3 α := fun i =>
    match i with
    | 0 => ⟨o 0, o 1, o 2⟩
    | 1 => ⟨o 3, o 4, o 5⟩
    | _ => ⟨o 6, o 7, o 8⟩
  let normal := plane.normal
  let pLen := obb.size.x * |Dot normal (rot 0)| +
    obb.size.y * |Dot normal (rot 1)| +
    obb.size.z * |Dot normal (rot 2)|
  let dist := Dot plane.normal obb.position - plane.distance
  decide (|dist| ≤ pLen)

/-! ## Single-precision rounding

The source computes in `float`.  The definitions above read every operation as
exact; the definitions of this section read the same source with the result of
every addition, subtraction, multiplication and division passed through a
rounding function `fl`.  With `fl` the identity they are the definitions above;
with `fl32`, rounding to the nearest single-precision number, they follow the
compiled program as long as no intermediate result leaves the finite range.
The library square root is modelled by `sqrt32`, the root rounded to the
nearest single-precision number. -/

/-- Round a rational to the nearest integer, a tie going to the even one. -/
def roundNearestEven (q : ℚ) : ℤ :=
  let f := q.floor
  let r := q - f
  if r < 1 / 2 then f else if 1 / 2 < r then f + 1 else if f % 2 = 0 then f else f + 1

/-- Halve `n` until it is below 2, counting the steps; `fuel` bounds the number
of steps. -/
def log2Fuel : ℕ → ℕ → ℕ
  | 0, _ => 0
  | fuel + 1, n => if n < 2 then 0 else 1 + log2Fuel fuel (n / 2)

/-- The largest `k` with `2 ^ k ≤ n`, for `n ≥ 1`. -/
def log2Floor (n : ℕ) : ℕ := log2Fuel n n

/-- The binary exponent of a non-zero rational `x`: the largest `e` with
`2 ^ e ≤ |x|`, found from the bit lengths of numerator and denominator. -/
def binaryExponent (x : ℚ) : ℤ :=
  let n := x.num.natAbs
  let d := x.den
  let a := log2Floor n
  let b := log2Floor d
  if b ≤ a then
    if 2 ^ (a - b) * d ≤ n then ((a - b : ℕ) : ℤ) else ((a - b : ℕ) : ℤ) - 1
  else
    if d ≤ 2 ^ (b - a) * n then -((b - a : ℕ) : ℤ) else -((b - a : ℕ) : ℤ) - 1

/-- The power `2 ^ e` of an integer exponent, as a rational. -/
def pow2 (e : ℤ) : ℚ :=
  if 0 ≤ e then ((2 ^ e.toNat : ℕ) : ℚ) else 1 / ((2 ^ (-e).toNat : ℕ) : ℚ)

/-- Rounding to the nearest single-precision number (24 significant bits,
smallest exponent -126, ties to even).  Overflow to infinity is not modelled. -/
def fl32 (x : ℚ) : ℚ :=
  if x = 0 then 0
  else
    let e := max (binaryExponent x) (-126)
    let q := pow2 (e - 23)
    (roundNearestEven (x / q) : ℚ) * q

/-- Newton's iteration for the integer square root of `n`, started above the
root and stopped when it no longer decreases; `fuel` bounds the number of steps. -/
def sqrtIter : ℕ → ℕ → ℕ → ℕ
  | 0, _, g => g
  | fuel + 1, n, g =>
    let next := (g + n / g) / 2
    if next < g then sqrtIter fuel n next else g

/-- The largest `k` with `k * k ≤ n`. -/
def natSqrt (n : ℕ) : ℕ :=
  if n ≤ 1 then n else sqrtIter n n (2 ^ (log2Floor n / 2 + 1))

/-- The square root rounded to the nearest single-precision number, as the
library returns it; 0 for an argument that is not positive.  The argument is
scaled by a power of 4 so that its root has about 40 bits before the binary
point; when the root is not exact, the value handed to `fl32` is the midpoint
of the two integers around the scaled root, which lies on the same side of
every rounding boundary as the root itself. -/
def sqrt32 (x : ℚ) : ℚ :=
  if x ≤ 0 then 0
  else
    let s : ℤ := 40 - binaryExponent x / 2
    let z := x * pow2 (2 * s)
    let n := natSqrt z.floor.toNat
    if ((n * n : ℕ) : ℚ) = z then fl32 ((n : ℚ) / pow2 s)
    else fl32 (((n : ℚ) + 1 / 2) / pow2 s)

namespace Rounded

/-- Vector addition, each component rounded. -/
def vadd (fl : α → α) (a b : vec3 α) : vec3 α :=
  ⟨fl (a.x + b.x), fl (a.y + b.y), fl (a.z + b.z)⟩

/-- Vector subtraction, each component rounded. -/
def vsub (fl : α → α) (a b : vec3 α) : vec3 α :=
  ⟨fl (a.x - b.x), fl (a.y - b.y), fl (a.z - b.z)⟩

/-- Scalar multiplication `v * f`, each component rounded. -/
def vmul (fl : α → α) (a : vec3 α) (f : α) : vec3 α :=
  ⟨fl (a.x * f), fl (a.y * f), fl (a.z * f)⟩

/-- Dot product `l.x * r.x + l.y * r.y + l.z * r.z`, every operation rounded. -/
def Dot (fl : α → α) (l r : vec3 α) : α :=
  fl (fl (fl (l.x * r.x) + fl (l.y * r.y)) + fl (l.z * r.z))

/-- Squared magnitude, every operation rounded. -/
def MagnitudeSq (fl : α → α) (v : vec3 α) : α := Dot fl v v

/-- The macro `CMP(x, y)`, the subtraction and the product rounded. -/
def CMP (fl : α → α) (x y : α) : Bool :=
  decide (|fl (x - y)| ≤ fl (FLT_EPSILON * max 1 (max |x| |y|)))

/-- `GetMin`, rounded. -/
def GetMin (fl : α → α) (aabb : AABB α) : vec3 α :=
  let p1 := vadd fl aabb.position aabb.size
  let p2 := vsub fl aabb.position aabb.size
  ⟨min p1.x p2.x, min p1.y p2.y, min p1.z p2.z⟩

/-- `GetMax`, rounded. -/
def GetMax (fl : α → α) (aabb : AABB α) : vec3 α :=
  let p1 := vadd fl aabb.position aabb.size
  let p2 := vsub fl aabb.position aabb.size
  ⟨max p1.x p2.x, max p1.y p2.y, max p1.z p2.z⟩

/-- `PlaneEquation(point, plane)`, rounded. -/
def PlaneEquation (fl : α → α) (point : Point α) (plane : Plane α) : α :=
  fl (Dot fl point plane.normal - plane.distance)

/-- `PointOnPlane(point, plane)`, rounded. -/
def PointOnPlane (fl : α → α) (point : Point α) (plane : Plane α) : Bool :=
  CMP fl (fl (Dot fl point plane.normal - plane.distance)) 0

/-- `PointInOBB(point, obb)`, rounded. -/
def PointInOBB (fl : α → α) (point : Point α) (obb : OBB α) : Bool :=
  let dir := vsub fl point obb.position
  [0, 1, 2].all fun i =>
    let axis : vec3 α :=
      ⟨obb.orientation.asArray (i * 3), obb.orientation.asArray (i * 3 + 1),
        obb.orientation.asArray (i * 3 + 2)⟩
    let distance := Dot fl dir axis
    if distance > obb.size.asArray i then false
    else if distance < -obb.size.asArray i then false
    else true

/-- `ClosestPoint(obb, point)`, rounded. -/
def OBB.ClosestPoint (fl : α → α) (obb : OBB α) (point : Point α) : Point α :=
  let dir := vsub fl point obb.position
  [0, 1, 2].foldl (fun result i =>
    let axis : vec3 α :=
      ⟨obb.orientation.asArray (i * 3), obb.orientation.asArray (i * 3 + 1),
        obb.orientation.asArray (i * 3 + 2)⟩
    let distance := Dot fl dir axis
    let distance := if distance > obb.size.asArray i then obb.size.asArray i else distance
    let distance := if distance < -obb.size.asArray i then -obb.size.asArray i else distance
    vadd fl result (vmul fl axis distance)) obb.position

/-- `ClosestPoint(plane, point)`, rounded. -/
def Plane.ClosestPoint (fl : α → α) (plane : Plane α) (point : Point α) : Point α :=
  let distance := fl (Dot fl plane.normal point - plane.distance)
  vsub fl point (vmul fl plane.normal distance)

/-- `ClosestPoint(line, point)`, rounded. -/
def Line.ClosestPoint (fl : α → α) (line : Line α) (point : Point α) : Point α :=
  let lVec := vsub fl line.«end» line.start
  let t := fl (Dot fl (vsub fl point line.start) lVec / Dot fl lVec lVec)
  let t := max t 0
  let t := min t 1
  vadd fl line.start (vmul fl lVec t)

/-- `GetInterval(aabb, axis)`, rounded. -/
def AABB.GetInterval (fl : α → α) (aabb : AABB α) (axis : vec3 α) : Interval α :=
  let i := GetMin fl aabb
  let a := GetMax fl aabb
  let vertex0 : vec3 α := ⟨i.x, a.y, a.z⟩
  let vertex : List (vec3 α) :=
    [⟨i.x, a.y, i.z⟩,
     ⟨i.x, i.y, a.z⟩,
     ⟨i.x, i.y, i.z⟩,
     ⟨a.x, a.y, a.z⟩,
     ⟨a.x, a.y, i.z⟩,
     ⟨a.x, i.y, a.z⟩,
     ⟨a.x, i.y, i.z⟩]
  vertex.foldl (fun result v =>
    let projection := Dot fl axis v
    ⟨if projection < result.min then projection else result.min,
     if projection > result.max then projection else result.max⟩)
    ⟨Dot fl axis vertex0, Dot fl axis vertex0⟩

/-- `AABBPlane(aabb, plane)`, rounded. -/
def AABBPlane (fl : α → α) (aabb : AABB α) (plane : Plane α) : Bool :=
  let pLen := fl (fl (fl (aabb.size.x * |plane.normal.x|) +
    fl (aabb.size.y * |plane.normal.y|)) +
    fl (aabb.size.z * |plane.normal.z|))
  let dist := fl (Dot fl plane.normal aabb.position - plane.distance)
  decide (|dist| ≤ pLen)

/-- `GetInterval(obb, axis)`, rounded. -/
def OBB.GetInterval (fl : α → α) (obb : OBB α) (axis : vec3 α) : Interval α :=
  let C := obb.position
  let E := obb.size.asArray
  let o := obb.orientation.asArray
  let A : Nat → vec3 α := fun i =>
    match i with
    | 0 => ⟨o 0, o 1, o 2⟩
    | 1 => ⟨o 3, o 4, o 5⟩
    | _ => ⟨o 6, o 7, o 8⟩
  let a0 := vmul fl (A 0) (E 0)
  let a1 := vmul fl (A 1) (E 1)
  let a2 := vmul fl (A 2) (E 2)
  let vertex0 := vadd fl (vadd fl (vadd fl C a0) a1) a2
  let vertex : List (vec3 α) :=
    [vadd fl (vadd fl (vsub fl C a0) a1) a2,
     vadd fl (vsub fl (vadd fl C a0) a1) a2,
     vsub fl (vadd fl (vadd fl C a0) a1) a2,
     vsub fl (vsub fl (vsub fl C a0) a1) a2,
     vsub fl (vsub fl (vadd fl C a0) a1) a2,
     vsub fl (vadd fl (vsub fl C a0) a1) a2,
     vadd fl (vsub fl (vsub fl C a0) a1) a2]
  vertex.foldl (fun result v =>
    let projection := Dot fl axis v
    ⟨if projection < result.min then projection else result.min,
     if projection > result.max then projection else result.max⟩)
    ⟨Dot fl axis vertex0, Dot fl axis vertex0⟩

/-- `OBBPlane(obb, plane)`, rounded. -/
def OBBPlane (fl : α → α) (obb : OBB α) (plane : Plane α) : Bool :=
  let o := obb.orientation.asArray
  let rot : Nat → vec3 α := fun i =>
    match i with
    | 0 => ⟨o 0, o 1, o 2⟩
    | 1 => ⟨o 3, o 4, o 5⟩
    | _ => ⟨o 6, o 7, o 8⟩
  let normal := plane.normal
  let pLen := fl (fl (fl (obb.size.x * |Dot fl normal (rot 0)|) +
    fl (obb.size.y * |Dot fl normal (rot 1)|)) +
    fl (obb.size.z * |Dot fl normal (rot 2)|))
  let dist := fl (Dot fl plane.normal obb.position - plane.distance)
  decide (|dist| ≤ pLen)

/-- `Raycast(aabb, ray)`, rounded; `0.00001f` is the rounded `1 / 100000`. -/
def AABB.Raycast (fl : α → α) (aabb : AABB α) (ray : Ray α) : α :=
  let min_ := GetMin fl aabb
  let max_ := GetMax fl aabb
  let t1 := fl (fl (min_.x - ray.origin.x) /
    (if CMP fl ray.direction.x 0 then fl (1 / 100000) else ray.direction.x))
  let t2 := fl (fl (max_.x - ray.origin.x) /
    (if CMP fl ray.direction.x 0 then fl (1 / 100000) else ray.direction.x))
  let t3 := fl (fl (min_.y - ray.origin.y) /
    (if CMP fl ray.direction.y 0 then fl (1 / 100000) else ray.direction.y))
  let t4 := fl (fl (max_.y - ray.origin.y) /
    (if CMP fl ray.direction.y 0 then fl (1 / 100000) else ray.direction.y))
  let t5 := fl (fl (min_.z - ray.origin.z) /
    (if CMP fl ray.direction.z 0 then fl (1 / 100000) else ray.direction.z))
  let t6 := fl (fl (max_.z - ray.origin.z) /
    (if CMP fl ray.direction.z 0 then fl (1 / 100000) else ray.direction.z))
  let tmin := max (max (min t1 t2) (min t3 t4)) (min t5 t6)
  let tmax := min (min (max t1 t2) (max t3 t4)) (max t5 t6)
  if tmax < 0 then -1
  else if tmin > tmax then -1
  else if tmin < 0 then tmax
  else tmin

/-- `Raycast(plane, ray)`, rounded. -/
def Plane.Raycast (fl : α → α) (plane : Plane α) (ray : Ray α) : α :=
  let nd := Dot fl ray.direction plane.normal
  let pn := Dot fl ray.origin plane.normal
  if nd ≥ 0 then -1
  else
    let t := fl (fl (plane.distance - pn) / nd)
    if t ≥ 0 then t else -1

/-- `Linetest(sphere, line)`, rounded. -/
def Sphere.Linetest (fl : α → α) (sphere : Sphere α) (line : Line α) : Bool :=
  let closest := Line.ClosestPoint fl line sphere.position
  let distSq := MagnitudeSq fl (vsub fl sphere.position closest)
  decide (distSq ≤ fl (sphere.radius * sphere.radius))

/-- `Linetest(plane, line)`, rounded. -/
def Plane.Linetest (fl : α → α) (plane : Plane α) (line : Line α) : Bool :=
  let ab := vsub fl line.«end» line.start
  let nA := Dot fl plane.normal line.start
  let nAB := Dot fl plane.normal ab
  if CMP fl nAB 0 then false
  else
    let t := fl (fl (plane.distance - nA) / nAB)
    decide (t ≥ 0 ∧ t ≤ 1)

/-- `Raycast(sphere, ray)`, rounded; `sqrt` is the library square root with its
result stored in a `float`. -/
def Sphere.Raycast (fl : α → α) (sqrt : α → α) (sphere : Sphere α) (ray : Ray α) : α :=
  let e := vsub fl sphere.position ray.origin
  let rSq := fl (sphere.radius * sphere.radius)
  let eSq := MagnitudeSq fl e
  let a := Dot fl e ray.direction
  let bSq := fl (eSq - fl (a * a))
  let f := sqrt (fl (rSq - bSq))
  if fl (rSq - fl (eSq - fl (a * a))) < 0 then -1
  else if eSq < rSq then fl (a + f)
  else fl (a - f)

end Rounded

/-! ## Properties the claims speak about -/

/-- The point `p` lies in the closed box `[GetMin aabb, GetMax aabb]`, on all three axes. -/
def InClosedBox (p : Point α) (aabb : AABB α) : Prop :=
  ((GetMin aabb).x ≤ p.x ∧ p.x ≤ (GetMax aabb).x) ∧
  ((GetMin aabb).y ≤ p.y ∧ p.y ≤ (GetMax aabb).y) ∧
  ((GetMin aabb).z ≤ p.z ∧ p.z ≤ (GetMax aabb).z)

/-- The component-wise clamp of `p` into `[GetMin aabb, GetMax aabb]`, in the
words of the specification: `min(max(p.c, min.c), max.c)` on each axis. -/
def clampIntoBox (aabb : AABB α) (p : Point α) : Point α :=
  ⟨min (max p.x (GetMin aabb).x) (GetMax aabb).x,
   min (max p.y (GetMin aabb).y) (GetMax aabb).y,
   min (max p.z (GetMin aabb).z) (GetMax aabb).z⟩

/-- The three rows of the matrix, as vectors. -/
def mat3.row (m : mat3 α) (i : Nat) : vec3 α :=
  ⟨m.asArray (i * 3), m.asArray (i * 3 + 1), m.asArray (i * 3 + 2)⟩

/-- The invariant of an oriented box's orientation: its rows are unit-length
and mutually perpendicular. -/
def OrthonormalRows (m : mat3 α) : Prop :=
  Dot (m.row 0) (m.row 0) = 1 ∧ Dot (m.row 1) (m.row 1) = 1 ∧ Dot (m.row 2) (m.row 2) = 1 ∧
  Dot (m.row 0) (m.row 1) = 0 ∧ Dot (m.row 0) (m.row 2) = 0 ∧ Dot (m.row 1) (m.row 2) = 0

/-- Non-negative half-extents. -/
def NonNegExtents (size : vec3 α) : Prop := 0 ≤ size.x ∧ 0 ≤ size.y ∧ 0 ≤ size.z

/-- The two projection intervals overlap, in the words of the specification:
`bMin <= aMax && aMin <= bMax`. -/
def Interval.Overlaps (a b : Interval α) : Prop := b.min ≤ a.max ∧ a.min ≤ b.max

/-- The fifteen candidate axes of an oriented box pair, in the words of the
specification: the rows of the first box, the rows of the second, and the nine
cross products of a row of the first with a row of the second. -/
def satAxesOBBOBB (obb1 obb2 : OBB α) : List (vec3 α) :=
  let A := obb1.orientation.row
  let B := obb2.orientation.row
  [A 0, A 1, A 2, B 0, B 1, B 2,
   Cross (A 0) (B 0), Cross (A 0) (B 1), Cross (A 0) (B 2),
   Cross (A 1) (B 0), Cross (A 1) (B 1), Cross (A 1) (B 2),
   Cross (A 2) (B 0), Cross (A 2) (B 1), Cross (A 2) (B 2)]

/-- The fifteen candidate axes of an axis-aligned box and an oriented box, in the
words of the specification: the world axes, the rows of the oriented box, and
the nine cross products of a world axis with a row. -/
def satAxesAABBOBB (obb : OBB α) : List (vec3 α) :=
  let A : Nat → vec3 α := fun i =>
    match i with
    | 0 => ⟨1, 0, 0⟩
    | 1 => ⟨0, 1, 0⟩
    | _ => ⟨0, 0, 1⟩
  let B := obb.orientation.row
  [A 0, A 1, A 2, B 0, B 1, B 2,
   Cross (A 0) (B 0), Cross (A 0) (B 1), Cross (A 0) (B 2),
   Cross (A 1) (B 0), Cross (A 1) (B 1), Cross (A 1) (B 2),
   Cross (A 2) (B 0), Cross (A 2) (B 1), Cross (A 2) (B 2)]

/-- The point `p` lies in the oriented box: its projection on each local axis,
taken from the centre, is at most the half-extent in absolute value. -/
def InOBB (p : Point α) (obb : OBB α) : Prop :=
  |Dot (p - obb.position) (obb.orientation.row 0)| ≤ obb.size.x ∧
  |Dot (p - obb.position) (obb.orientation.row 1)| ≤ obb.size.y ∧
  |Dot (p - obb.position) (obb.orientation.row 2)| ≤ obb.size.z

/-- The body of the loop of both `GetInterval` overloads: widen the interval by
the projection of one more vertex. -/
def projectionStep (axis : vec3 α) (result : Interval α) (v : vec3 α) : Interval α :=
  let projection := Dot axis v
  ⟨if projection < result.min then projection else result.min,
   if projection > result.max then projection else result.max⟩

/-! ## Component lemmas -/

@[simp] theorem vec3.add_def (a b : vec3 α) :
    a + b = ⟨a.x + b.x, a.y + b.y, a.z + b.z⟩ := rfl

@[simp] theorem vec3.sub_def (a b : vec3 α) :
    a - b = ⟨a.x - b.x, a.y - b.y, a.z - b.z⟩ := rfl

@[simp] theorem vec3.mul_def (a : vec3 α) (f : α) :
    a * f = ⟨a.x * f, a.y * f, a.z * f⟩ := rfl

theorem GetMin_le_GetMax (aabb : AABB α) :
    (GetMin aabb).x ≤ (GetMax aabb).x ∧ (GetMin aabb).y ≤ (GetMax aabb).y ∧
      (GetMin aabb).z ≤ (GetMax aabb).z := by
  simp only [GetMin, GetMax]
  exact ⟨le_trans (min_le_left _ _) (le_max_left _ _),
    le_trans (min_le_left _ _) (le_max_left _ _),
    le_trans (min_le_left _ _) (le_max_left _ _)⟩

/-! ## The rounded reading with nothing rounded is the exact reading -/

theorem Rounded_id_vadd (a b : vec3 α) : Rounded.vadd (fun x => x) a b = a + b := rfl

theorem Rounded_id_vsub (a b : vec3 α) : Rounded.vsub (fun x => x) a b = a - b := rfl

theorem Rounded_id_vmul (a : vec3 α) (f : α) : Rounded.vmul (fun x => x) a f = a * f := rfl

theorem Rounded_id_Dot (l r : vec3 α) : Rounded.Dot (fun x => x) l r = Dot l r := rfl

theorem Rounded_id_MagnitudeSq (v : vec3 α) :
    Rounded.MagnitudeSq (fun x => x) v = MagnitudeSq v := rfl

theorem Rounded_id_CMP (x y : α) : Rounded.CMP (fun x => x) x y = CMP x y := rfl

theorem Rounded_id_GetMin (aabb : AABB α) : Rounded.GetMin (fun x => x) aabb = GetMin aabb := rfl

theorem Rounded_id_GetMax (aabb : AABB α) : Rounded.GetMax (fun x => x) aabb = GetMax aabb := rfl

theorem Rounded_id_PlaneEquation (point : Point α) (plane : Plane α) :
    Rounded.PlaneEquation (fun x => x) point plane = PlaneEquation point plane := rfl

theorem Rounded_id_PointOnPlane (point : Point α) (plane : Plane α) :
    Rounded.PointOnPlane (fun x => x) point plane = PointOnPlane point plane := rfl

theorem Rounded_id_PointInOBB (point : Point α) (obb : OBB α) :
    Rounded.PointInOBB (fun x => x) point obb = PointInOBB point obb := rfl

theorem Rounded_id_OBB_ClosestPoint (obb : OBB α) (point : Point α) :
    Rounded.OBB.ClosestPoint (fun x => x) obb point = obb.ClosestPoint point := rfl

theorem Rounded_id_Plane_ClosestPoint (plane : Plane α) (point : Point α) :
    Rounded.Plane.ClosestPoint (fun x => x) plane point = plane.ClosestPoint point := rfl

theorem Rounded_id_Line_ClosestPoint (line : Line α) (point : Point α) :
    Rounded.Line.ClosestPoint (fun x => x) line point = line.ClosestPoint point := rfl

theorem Rounded_id_AABB_GetInterval (aabb : AABB α) (axis : vec3 α) :
    Rounded.AABB.GetInterval (fun x => x) aabb axis = aabb.GetInterval axis := rfl

theorem Rounded_id_AABBPlane (aabb : AABB α) (plane : Plane α) :
    Rounded.AABBPlane (fun x => x) aabb plane = AABBPlane aabb plane := rfl

theorem Rounded_id_AABB_Raycast (aabb : AABB α) (ray : Ray α) :
    Rounded.AABB.Raycast (fun x => x) aabb ray = aabb.Raycast ray := rfl

theorem Rounded_id_Plane_Raycast (plane : Plane α) (ray : Ray α) :
    Rounded.Plane.Raycast (fun x => x) plane ray = plane.Raycast ray := rfl

theorem Rounded_id_Sphere_Raycast (sqrt : α → α) (sphere : Sphere α) (ray : Ray α) :
    Rounded.Sphere.Raycast (fun x => x) sqrt sphere ray = sphere.Raycast sqrt ray := rfl

theorem Rounded_id_Sphere_Linetest (sphere : Sphere α) (line : Line α) :
    Rounded.Sphere.Linetest (fun x => x) sphere line = sphere.Linetest line := rfl

theorem Rounded_id_Plane_Linetest (plane : Plane α) (line : Line α) :
    Rounded.Plane.Linetest (fun x => x) plane line = plane.Linetest line := rfl

theorem Rounded_id_OBB_GetInterval (obb : OBB α) (axis : vec3 α) :
    Rounded.OBB.GetInterval (fun x => x) obb axis = obb.GetInterval axis := rfl

theorem Rounded_id_OBBPlane (obb : OBB α) (plane : Plane α) :
    Rounded.OBBPlane (fun x => x) obb plane = OBBPlane obb plane := rfl

/-- Single-precision rounding on a few values: numbers with at most 24
significant bits are kept, 1 + 3/2²⁵ goes up to 1 + 2⁻²³, 1 - 3/2²⁵ is a tie
and goes to the even neighbour 1 - 2⁻²³, and 1/5, 1/7 are not representable. -/
theorem fl32_examples :
    fl32 0 = 0 ∧ fl32 5 = 5 ∧ fl32 (-3 / 8) = -3 / 8 ∧ fl32 (16777215 / 16777216) =
      16777215 / 16777216 ∧
    fl32 (1 + 3 / 33554432) = 8388609 / 8388608 ∧
    fl32 (1 - 3 / 33554432) = 8388607 / 8388608 ∧
    fl32 (1 / 5) = 13421773 / 67108864 ∧ fl32 (1 / 7) = 9586981 / 67108864 ∧
    fl32 (-20132659 / 67108864) = -5033165 / 16777216 := by decide!

/-- The rounded square root on a few values: exact on 0, 1, 4 and 1/4, and the
single-precision neighbours of √2 and √87/16 elsewhere. -/
theorem sqrt32_examples :
    sqrt32 0 = 0 ∧ sqrt32 1 = 1 ∧ sqrt32 4 = 2 ∧ sqrt32 (1 / 4) = 1 / 2 ∧
    sqrt32 2 = 11863283 / 8388608 ∧ sqrt32 (87 / 256) = 4890233 / 8388608 := by decide!

/-! ## C1: PointInAABB -/

/-- C1: PointInAABB is claimed to hold exactly for the points of the closed box.
The source compares `point.x`, not `point.y`, with `min.y`: for the box centred at
the origin with half-extents (1,1,1) the point (0,-5,0) is reported inside although
its y coordinate is below the box, while the two points of the specification's
scenario, (2,0,0) and (0.5,0.5,0.5), are classified as the specification says. -/
theorem C1_PointInAABB_skips_lower_y :
    PointInAABB (⟨0, -5, 0⟩ : Point ℚ) ⟨⟨0, 0, 0⟩, ⟨1, 1, 1⟩⟩ = true ∧
    ¬ InClosedBox (⟨0, -5, 0⟩ : Point ℚ) ⟨⟨0, 0, 0⟩, ⟨1, 1, 1⟩⟩ ∧
    PointInAABB (⟨2, 0, 0⟩ : Point ℚ) ⟨⟨0, 0, 0⟩, ⟨1, 1, 1⟩⟩ = false ∧
    PointInAABB (⟨1 / 2, 1 / 2, 1 / 2⟩ : Point ℚ) ⟨⟨0, 0, 0⟩, ⟨1, 1, 1⟩⟩ = true := by
  refine ⟨?_, ?_, ?_, ?_⟩ <;> norm_num [PointInAABB, InClosedBox, GetMin, GetMax]

/-! ## C2: ClosestPoint on an AABB -/

/-- C2: ClosestPoint on an AABB is claimed to be the component-wise clamp into
`[GetMin, GetMax]`.  The source compares the y and z coordinates with `min.x` and
`max.x`: for the box centred at the origin with half-extents (1,5,1) the point
(0,3,0), which lies inside the box, is moved to (0,5,0), whereas the clamp leaves
it where it is.  On the scenario of the specification (half-extents (1,1,1),
point (2,0,0)) the result is (1,0,0). -/
theorem C2_ClosestPoint_AABB_not_clamp :
    (⟨⟨0, 0, 0⟩, ⟨1, 5, 1⟩⟩ : AABB ℚ).ClosestPoint ⟨0, 3, 0⟩ = ⟨0, 5, 0⟩ ∧
    clampIntoBox (⟨⟨0, 0, 0⟩, ⟨1, 5, 1⟩⟩ : AABB ℚ) ⟨0, 3, 0⟩ = ⟨0, 3, 0⟩ ∧
    (⟨⟨0, 0, 0⟩, ⟨1, 1, 1⟩⟩ : AABB ℚ).ClosestPoint ⟨2, 0, 0⟩ = ⟨1, 0, 0⟩ := by
  refine ⟨?_, ?_, ?_⟩ <;> norm_num [AABB.ClosestPoint, clampIntoBox, GetMin, GetMax]

/-! ## C3: OBBOBB -/

/-- The projection loop shared by both `GetInterval` overloads keeps
`min ≤ max`. -/
theorem foldl_projection_min_le_max (axis : vec3 α) (vs : List (vec3 α)) :
    ∀ r : Interval α, r.min ≤ r.max →
      (vs.foldl (fun result v =>
        let projection := Dot axis v
        (⟨if projection < result.min then projection else result.min,
          if projection > result.max then projection else result.max⟩ : Interval α)) r).min ≤
      (vs.foldl (fun result v =>
        let projection := Dot axis v
        (⟨if projection < result.min then projection else result.min,
          if projection > result.max then projection else result.max⟩ : Interval α)) r).max := by
  induction vs with
  | nil => intro r h; simpa using h
  | cons v vs ih =>
    intro r h
    simp only [List.foldl_cons]
    apply ih
    show (if Dot axis v < r.min then Dot axis v else r.min) ≤
      (if Dot axis v > r.max then Dot axis v else r.max)
    split_ifs with h1 h2 h2
    · exact le_refl _
    · exact le_trans (le_of_lt h1) h
    · exact le_trans h (le_of_lt h2)
    · exact h

theorem OBB_GetInterval_min_le_max (obb : OBB α) (axis : vec3 α) :
    (obb.GetInterval axis).min ≤ (obb.GetInterval axis).max := by
  unfold OBB.GetInterval
  exact foldl_projection_min_le_max axis _ _ (le_refl _)

theorem AABB_GetInterval_min_le_max (aabb : AABB α) (axis : vec3 α) :
    (aabb.GetInterval axis).min ≤ (aabb.GetInterval axis).max := by
  unfold AABB.GetInterval
  exact foldl_projection_min_le_max axis _ _ (le_refl _)

/-- Since `OverlapOnAxis(obb1, obb2, axis)` projects `obb1` twice, it holds on
every axis, whatever the second box is. -/
theorem OBB.OverlapOnAxis_eq_true (obb1 obb2 : OBB α) (axis : vec3 α) :
    obb1.OverlapOnAxis obb2 axis = true := by
  simp [OBB.OverlapOnAxis, OBB_GetInterval_min_le_max]

/-- Hence `OBBOBB` answers `true` for every pair of oriented boxes. -/
theorem OBBOBB_eq_true (obb1 obb2 : OBB α) : OBBOBB obb1 obb2 = true := by
  unfold OBBOBB
  simp only [List.all_eq_true]
  intro axis _
  exact OBB.OverlapOnAxis_eq_true obb1 obb2 axis

/-- C3: OBBOBB is claimed to hold exactly when the projections of the two boxes
overlap on all fifteen candidate axes.  The source's `OverlapOnAxis` projects
`obb1` twice: for two unit cubes with identity orientation centred at (0,0,0) and
(10,0,0), whose projections on the candidate axis (1,0,0) are [-1,1] and [9,11],
OBBOBB still answers true. -/
theorem C3_OBBOBB_true_for_separated_boxes :
    OBBOBB (⟨⟨0, 0, 0⟩, ⟨1, 1, 1⟩, ⟨1, 0, 0, 0, 1, 0, 0, 0, 1⟩⟩ : OBB ℚ)
      ⟨⟨10, 0, 0⟩, ⟨1, 1, 1⟩, ⟨1, 0, 0, 0, 1, 0, 0, 0, 1⟩⟩ = true ∧
    OrthonormalRows (⟨1, 0, 0, 0, 1, 0, 0, 0, 1⟩ : mat3 ℚ) ∧
    NonNegExtents (⟨1, 1, 1⟩ : vec3 ℚ) ∧
    (⟨1, 0, 0⟩ : vec3 ℚ) ∈ satAxesOBBOBB
      (⟨⟨0, 0, 0⟩, ⟨1, 1, 1⟩, ⟨1, 0, 0, 0, 1, 0, 0, 0, 1⟩⟩ : OBB ℚ)
      ⟨⟨10, 0, 0⟩, ⟨1, 1, 1⟩, ⟨1, 0, 0, 0, 1, 0, 0, 0, 1⟩⟩ ∧
    (⟨⟨0, 0, 0⟩, ⟨1, 1, 1⟩, ⟨1, 0, 0, 0, 1, 0, 0, 0, 1⟩⟩ : OBB ℚ).GetInterval ⟨1, 0, 0⟩
      = ⟨-1, 1⟩ ∧
    (⟨⟨10, 0, 0⟩, ⟨1, 1, 1⟩, ⟨1, 0, 0, 0, 1, 0, 0, 0, 1⟩⟩ : OBB ℚ).GetInterval ⟨1, 0, 0⟩
      = ⟨9, 11⟩ ∧
    ¬ ((⟨⟨0, 0, 0⟩, ⟨1, 1, 1⟩, ⟨1, 0, 0, 0, 1, 0, 0, 0, 1⟩⟩ : OBB ℚ).GetInterval
        ⟨1, 0, 0⟩).Overlaps
      ((⟨⟨10, 0, 0⟩, ⟨1, 1, 1⟩, ⟨1, 0, 0, 0, 1, 0, 0, 0, 1⟩⟩ : OBB ℚ).GetInterval
        ⟨1, 0, 0⟩) := by
  refine ⟨?_, ?_, ?_, ?_, ?_, ?_, ?_⟩
  · norm_num [OBBOBB, OBB.OverlapOnAxis, OBB.GetInterval, Dot, Cross, mat3.asArray,
      vec3.asArray]
  · norm_num [OrthonormalRows, mat3.row, Dot, mat3.asArray]
  · norm_num [NonNegExtents]
  · simp [satAxesOBBOBB, mat3.row, mat3.asArray]
  · norm_num [OBB.GetInterval, Dot, mat3.asArray, vec3.asArray]
  · norm_num [OBB.GetInterval, Dot, mat3.asArray, vec3.asArray]
  · norm_num [Interval.Overlaps, OBB.GetInterval, Dot, mat3.asArray, vec3.asArray]

/-! ## C4: AABBOBB -/

/-- C4: AABBOBB is claimed to hold exactly when the projections overlap on the
world axes, the rows of the oriented box and the nine cross products of a world
axis with a row.  The source fills the last nine axes with cross products of the
world axes among themselves.  For the AABB centred at the origin with
half-extents (3,1,1) and the OBB centred at (-1,-3,-4) with half-extents (1,3,1)
and rows (2,-2,1)/3, (1,2,2)/3, (2,1,-2)/3, the projections on the cross product
of (1,0,0) with the first row are [-1,1] and [4/3,6], which do not overlap, and
AABBOBB answers true. -/
theorem C4_AABBOBB_true_despite_separating_edge_axis :
    AABBOBB (⟨⟨0, 0, 0⟩, ⟨3, 1, 1⟩⟩ : AABB ℚ)
      ⟨⟨-1, -3, -4⟩, ⟨1, 3, 1⟩,
        ⟨2 / 3, -2 / 3, 1 / 3, 1 / 3, 2 / 3, 2 / 3, 2 / 3, 1 / 3, -2 / 3⟩⟩ = true ∧
    OrthonormalRows
      (⟨2 / 3, -2 / 3, 1 / 3, 1 / 3, 2 / 3, 2 / 3, 2 / 3, 1 / 3, -2 / 3⟩ : mat3 ℚ) ∧
    NonNegExtents (⟨1, 3, 1⟩ : vec3 ℚ) ∧
    Cross (⟨1, 0, 0⟩ : vec3 ℚ) ⟨2 / 3, -2 / 3, 1 / 3⟩ ∈ satAxesAABBOBB
      (⟨⟨-1, -3, -4⟩, ⟨1, 3, 1⟩,
        ⟨2 / 3, -2 / 3, 1 / 3, 1 / 3, 2 / 3, 2 / 3, 2 / 3, 1 / 3, -2 / 3⟩⟩ : OBB ℚ) ∧
    (⟨⟨0, 0, 0⟩, ⟨3, 1, 1⟩⟩ : AABB ℚ).GetInterval
      (Cross ⟨1, 0, 0⟩ ⟨2 / 3, -2 / 3, 1 / 3⟩) = ⟨-1, 1⟩ ∧
    (⟨⟨-1, -3, -4⟩, ⟨1, 3, 1⟩,
        ⟨2 / 3, -2 / 3, 1 / 3, 1 / 3, 2 / 3, 2 / 3, 2 / 3, 1 / 3, -2 / 3⟩⟩ : OBB ℚ).GetInterval
      (Cross ⟨1, 0, 0⟩ ⟨2 / 3, -2 / 3, 1 / 3⟩) = ⟨4 / 3, 6⟩ ∧
    ¬ ((⟨⟨0, 0, 0⟩, ⟨3, 1, 1⟩⟩ : AABB ℚ).GetInterval
        (Cross ⟨1, 0, 0⟩ ⟨2 / 3, -2 / 3, 1 / 3⟩)).Overlaps
      ((⟨⟨-1, -3, -4⟩, ⟨1, 3, 1⟩,
        ⟨2 / 3, -2 / 3, 1 / 3, 1 / 3, 2 / 3, 2 / 3, 2 / 3, 1 / 3, -2 / 3⟩⟩ : OBB ℚ).GetInterval
        (Cross ⟨1, 0, 0⟩ ⟨2 / 3, -2 / 3, 1 / 3⟩)) := by
  refine ⟨?_, ?_, ?_, ?_, ?_, ?_, ?_⟩
  · norm_num [AABBOBB, AABB.OverlapOnAxis, AABB.GetInterval, OBB.GetInterval, Dot, Cross,
      mat3.asArray, vec3.asArray, GetMin, GetMax]
  · norm_num [OrthonormalRows, mat3.row, Dot, mat3.asArray]
  · norm_num [NonNegExtents]
  · simp [satAxesAABBOBB, mat3.row, mat3.asArray]
  · norm_num [AABB.GetInterval, Dot, Cross, GetMin, GetMax]
  · norm_num [OBB.GetInterval, Dot, Cross, mat3.asArray, vec3.asArray]
  · norm_num [Interval.Overlaps, AABB.GetInterval, OBB.GetInterval, Dot, Cross, mat3.asArray,
      vec3.asArray, GetMin, GetMax]

/-! ## C5: sentinel of the sphere raycast -/

/-- C5: the sphere raycast is claimed to return -1 or a non-negative parameter.
The source has no test for a sphere that lies behind the ray: for the unit sphere
at the origin and the ray from (5,0,0) with unit direction (1,0,0), which points
away from the sphere, it returns -6. -/
theorem C5_Raycast_sphere_returns_minus_six :
    Sphere.Raycast Real.sqrt (⟨⟨0, 0, 0⟩, 1⟩ : Sphere ℝ) ⟨⟨5, 0, 0⟩, ⟨1, 0, 0⟩⟩ = -6 ∧
    (0 : ℝ) ≤ (⟨⟨0, 0, 0⟩, 1⟩ : Sphere ℝ).radius ∧
    MagnitudeSq (⟨1, 0, 0⟩ : vec3 ℝ) = 1 := by
  refine ⟨?_, ?_, ?_⟩
  · norm_num [Sphere.Raycast, MagnitudeSq, Dot]
  · norm_num
  · norm_num [MagnitudeSq, Dot]

/-! ## C6: hits of the sphere raycast lie on the sphere -/

/-- In exact arithmetic with a square root that is exact at the discriminant
`r² - (|e|² - a²)`: for a ray with unit-length direction, whenever the sphere
raycast does not take its no-collision branch, the point
`origin + direction * t` at the returned parameter `t` has squared distance
`radius²` from the centre of the sphere. -/
theorem Sphere_Raycast_exact_hit_on_surface (sqrt : α → α) (sphere : Sphere α) (ray : Ray α)
    (hdir : MagnitudeSq ray.direction = 1)
    (hhit : 0 ≤ sphere.radius * sphere.radius -
      (MagnitudeSq (sphere.position - ray.origin) -
        Dot (sphere.position - ray.origin) ray.direction *
          Dot (sphere.position - ray.origin) ray.direction))
    (hroot : sqrt (sphere.radius * sphere.radius -
        (MagnitudeSq (sphere.position - ray.origin) -
          Dot (sphere.position - ray.origin) ray.direction *
            Dot (sphere.position - ray.origin) ray.direction)) *
      sqrt (sphere.radius * sphere.radius -
        (MagnitudeSq (sphere.position - ray.origin) -
          Dot (sphere.position - ray.origin) ray.direction *
            Dot (sphere.position - ray.origin) ray.direction)) =
      sphere.radius * sphere.radius -
        (MagnitudeSq (sphere.position - ray.origin) -
          Dot (sphere.position - ray.origin) ray.direction *
            Dot (sphere.position - ray.origin) ray.direction)) :
    MagnitudeSq (ray.origin + ray.direction * sphere.Raycast sqrt ray -
      sphere.position) = sphere.radius * sphere.radius := by
  obtain ⟨⟨cx, cy, cz⟩, r⟩ := sphere
  obtain ⟨⟨ox, oy, oz⟩, ⟨dx, dy, dz⟩⟩ := ray
  simp only [Sphere.Raycast, MagnitudeSq, Dot, vec3.sub_def, vec3.add_def, vec3.mul_def]
    at hdir hhit hroot ⊢
  rw [if_neg (not_lt.mpr hhit)]
  generalize sqrt _ = f at hroot ⊢
  split_ifs
  · linear_combination
      ((cx - ox) * dx + (cy - oy) * dy + (cz - oz) * dz + f) ^ 2 * hdir + hroot
  · linear_combination
      ((cx - ox) * dx + (cy - oy) * dy + (cz - oz) * dz - f) ^ 2 * hdir + hroot

/-- Over the real numbers with their square root, every operation exact: for a
ray with unit-length direction, whenever the sphere raycast does not take its
no-collision branch, the hit point is on the sphere. -/
theorem Sphere_Raycast_real_hit_on_surface (sphere : Sphere ℝ) (ray : Ray ℝ)
    (hdir : MagnitudeSq ray.direction = 1)
    (hhit : 0 ≤ sphere.radius * sphere.radius -
      (MagnitudeSq (sphere.position - ray.origin) -
        Dot (sphere.position - ray.origin) ray.direction *
          Dot (sphere.position - ray.origin) ray.direction)) :
    MagnitudeSq (ray.origin + ray.direction * Sphere.Raycast Real.sqrt sphere ray -
      sphere.position) = sphere.radius * sphere.radius :=
  Sphere_Raycast_exact_hit_on_surface Real.sqrt sphere ray hdir hhit (Real.mul_self_sqrt hhit)

/-- Two closed ranges, each non-empty, share a point exactly when each starts
before the other ends. -/
theorem ranges_share_point_iff (a b c d : α) (hab : a ≤ b) (hcd : c ≤ d) :
    (a ≤ d ∧ b ≥ c) ↔ ∃ t, (a ≤ t ∧ t ≤ b) ∧ (c ≤ t ∧ t ≤ d) := by
  constructor
  · rintro ⟨h1, h2⟩
    exact ⟨max a c, ⟨le_max_left _ _, max_le hab h2⟩, ⟨le_max_right _ _, max_le h1 hcd⟩⟩
  · rintro ⟨t, ⟨h1, h2⟩, ⟨h3, h4⟩⟩
    exact ⟨le_trans h1 h4, le_trans h3 h2⟩

/-- C7: AABBAABB holds exactly when some point lies in both closed boxes, so
boxes that merely touch overlap; for A centred (0,0,0) and B centred (1.5,0,0),
both of size (1,1,1), the answer is true, for B centred (3,0,0) it is false,
and for B centred (2,0,0), touching A in a face, it is true. -/
theorem C7_AABBAABB_iff_common_point :
    (∀ A B : AABB α, AABBAABB A B = true ↔ ∃ p, InClosedBox p A ∧ InClosedBox p B) ∧
    AABBAABB (⟨⟨0, 0, 0⟩, ⟨1, 1, 1⟩⟩ : AABB ℚ) ⟨⟨3 / 2, 0, 0⟩, ⟨1, 1, 1⟩⟩ = true ∧
    AABBAABB (⟨⟨0, 0, 0⟩, ⟨1, 1, 1⟩⟩ : AABB ℚ) ⟨⟨3, 0, 0⟩, ⟨1, 1, 1⟩⟩ = false ∧
    AABBAABB (⟨⟨0, 0, 0⟩, ⟨1, 1, 1⟩⟩ : AABB ℚ) ⟨⟨2, 0, 0⟩, ⟨1, 1, 1⟩⟩ = true := by
  refine ⟨?_, ?_, ?_, ?_⟩
  · intro A B
    obtain ⟨hAx, hAy, hAz⟩ := GetMin_le_GetMax A
    obtain ⟨hBx, hBy, hBz⟩ := GetMin_le_GetMax B
    simp only [AABBAABB, decide_eq_true_eq, ranges_share_point_iff _ _ _ _ hAx hBx,
      ranges_share_point_iff _ _ _ _ hAy hBy, ranges_share_point_iff _ _ _ _ hAz hBz]
    constructor
    · rintro ⟨⟨x, hx1, hx2⟩, ⟨y, hy1, hy2⟩, ⟨z, hz1, hz2⟩⟩
      exact ⟨⟨x, y, z⟩, ⟨hx1, hy1, hz1⟩, ⟨hx2, hy2, hz2⟩⟩
    · rintro ⟨p, ⟨hx1, hy1, hz1⟩, ⟨hx2, hy2, hz2⟩⟩
      exact ⟨⟨p.x, hx1, hx2⟩, ⟨p.y, hy1, hy2⟩, ⟨p.z, hz1, hz2⟩⟩
  · norm_num [AABBAABB, GetMin, GetMax]
  · norm_num [AABBAABB, GetMin, GetMax]
  · norm_num [AABBAABB, GetMin, GetMax]

/-! ## C8: idempotence of ClosestPoint on an AABB -/

/-- The clamp of the specification is idempotent: clamping a clamped point
leaves it where it is. -/
theorem clampIntoBox_idempotent (aabb : AABB α) (p : Point α) :
    clampIntoBox aabb (clampIntoBox aabb p) = clampIntoBox aabb p := by
  obtain ⟨hx, hy, hz⟩ := GetMin_le_GetMax aabb
  simp only [clampIntoBox, vec3.mk.injEq]
  refine ⟨?_, ?_, ?_⟩
  · rw [max_eq_left (le_min (le_max_right _ _) hx), min_eq_left (min_le_right _ _)]
  · rw [max_eq_left (le_min (le_max_right _ _) hy), min_eq_left (min_le_right _ _)]
  · rw [max_eq_left (le_min (le_max_right _ _) hz), min_eq_left (min_le_right _ _)]

/-- C8: ClosestPoint on an AABB is claimed to be idempotent.  Because the source
compares the y coordinate with `min.x` and `max.x`, it is not: for the box
centred at (0,-10,0) with half-extents (1,1,1) the point (0,5,0) is sent to
(0,-9,0), and (0,-9,0) is sent to (0,-11,0). -/
theorem C8_ClosestPoint_AABB_not_idempotent :
    NonNegExtents (⟨⟨0, -10, 0⟩, ⟨1, 1, 1⟩⟩ : AABB ℚ).size ∧
    (⟨⟨0, -10, 0⟩, ⟨1, 1, 1⟩⟩ : AABB ℚ).ClosestPoint ⟨0, 5, 0⟩ = ⟨0, -9, 0⟩ ∧
    (⟨⟨0, -10, 0⟩, ⟨1, 1, 1⟩⟩ : AABB ℚ).ClosestPoint ⟨0, -9, 0⟩ = ⟨0, -11, 0⟩ ∧
    (⟨⟨0, -10, 0⟩, ⟨1, 1, 1⟩⟩ : AABB ℚ).ClosestPoint
        ((⟨⟨0, -10, 0⟩, ⟨1, 1, 1⟩⟩ : AABB ℚ).ClosestPoint ⟨0, 5, 0⟩) ≠
      (⟨⟨0, -10, 0⟩, ⟨1, 1, 1⟩⟩ : AABB ℚ).ClosestPoint ⟨0, 5, 0⟩ := by
  refine ⟨?_, ?_, ?_, ?_⟩ <;>
    norm_num [NonNegExtents, AABB.ClosestPoint, GetMin, GetMax]

/-! ## C9: ClosestPoint on an OBB -/

/-- C11: SphereSphere, AABBAABB and OBBOBB give the same answer when their two
arguments are swapped. -/
theorem C11_same_kind_overlap_symmetric :
    (∀ A B : Sphere α, SphereSphere A B = SphereSphere B A) ∧
    (∀ A B : AABB α, AABBAABB A B = AABBAABB B A) ∧
    (∀ A B : OBB α, OBBOBB A B = OBBOBB B A) := by
  refine ⟨?_, ?_, ?_⟩
  · intro A B
    simp only [SphereSphere, MagnitudeSq, Dot, vec3.sub_def]
    congr 1
    apply propext
    have h1 : (A.position.x - B.position.x) * (A.position.x - B.position.x) +
        (A.position.y - B.position.y) * (A.position.y - B.position.y) +
        (A.position.z - B.position.z) * (A.position.z - B.position.z) =
        (B.position.x - A.position.x) * (B.position.x - A.position.x) +
        (B.position.y - A.position.y) * (B.position.y - A.position.y) +
        (B.position.z - A.position.z) * (B.position.z - A.position.z) := by ring
    have h2 : (A.radius + B.radius) * (A.radius + B.radius) =
        (B.radius + A.radius) * (B.radius + A.radius) := by ring
    rw [h1, h2]
  · intro A B
    simp only [AABBAABB, ge_iff_le]
    congr 1
    apply propext
    tauto
  · intro A B
    rw [OBBOBB_eq_true A B, OBBOBB_eq_true B A]

/-! ## C12: segment against plane -/

/-- C14: when the cross product of the two normals is the zero vector,
PlanePlane answers false whatever the distances are; in particular
PlanePlane(p, p) is false for every plane p. -/
theorem C14_PlanePlane_parallel_is_false (plane1 plane2 p : Plane α)
    (hpar : Cross plane1.normal plane2.normal = ⟨0, 0, 0⟩) :
    PlanePlane plane1 plane2 = false ∧ PlanePlane p p = false := by
  have hε : (0 : α) ≤ FLT_EPSILON := by norm_num [FLT_EPSILON]
  have h00 : CMP (0 : α) 0 = true := by
    simp only [CMP, sub_zero, abs_zero, decide_eq_true_eq]
    exact mul_nonneg hε (le_trans zero_le_one (le_max_left _ _))
  constructor
  · simp only [PlanePlane, hpar, Dot, mul_zero, add_zero, h00, Bool.not_true]
  · have hself : Cross p.normal p.normal = ⟨0, 0, 0⟩ := by
      simp only [Cross, vec3.mk.injEq]
      refine ⟨by ring, by ring, by ring⟩
    simp only [PlanePlane, hself, Dot, mul_zero, add_zero, h00, Bool.not_true]

/-- C14 at the parallel planes y = 0 and y = 5, and the plane x = 2 against
itself. -/
theorem C14_PlanePlane_parallel_is_false_witness :
    Cross (⟨⟨0, 1, 0⟩, 0⟩ : Plane ℚ).normal (⟨⟨0, 1, 0⟩, 5⟩ : Plane ℚ).normal = ⟨0, 0, 0⟩ ∧
    (PlanePlane (⟨⟨0, 1, 0⟩, 0⟩ : Plane ℚ) ⟨⟨0, 1, 0⟩, 5⟩ = false ∧
      PlanePlane (⟨⟨1, 0, 0⟩, 2⟩ : Plane ℚ) ⟨⟨1, 0, 0⟩, 2⟩ = false) :=
  ⟨by norm_num [Cross],
   C14_PlanePlane_parallel_is_false ⟨⟨0, 1, 0⟩, 0⟩ ⟨⟨0, 1, 0⟩, 5⟩ ⟨⟨1, 0, 0⟩, 2⟩
     (by norm_num [Cross])⟩

/-! ## C15: sentinel of the box and plane raycasts -/

/-- The last three tests shared by the two box raycasts return -1 or a
non-negative parameter. -/
theorem slab_result_sentinel (tmin tmax : α) :
    (if tmax < 0 then (-1 : α) else if tmin > tmax then -1 else if tmin < 0 then tmax
      else tmin) = -1 ∨
    0 ≤ (if tmax < 0 then (-1 : α) else if tmin > tmax then -1 else if tmin < 0 then tmax
      else tmin) := by
  split_ifs with h1 h2 h3
  · exact Or.inl rfl
  · exact Or.inl rfl
  · exact Or.inr (not_lt.mp h1)
  · exact Or.inr (not_lt.mp h3)

/-- C15: Raycast(aabb, ray), Raycast(obb, ray) and Raycast(plane, ray) each return
either -1 or a non-negative parameter. -/
theorem C15_box_and_plane_raycast_sentinel (aabb : AABB α) (obb : OBB α) (plane : Plane α)
    (ray : Ray α) :
    (aabb.Raycast ray = -1 ∨ 0 ≤ aabb.Raycast ray) ∧
    (obb.Raycast ray = -1 ∨ 0 ≤ obb.Raycast ray) ∧
    (plane.Raycast ray = -1 ∨ 0 ≤ plane.Raycast ray) := by
  refine ⟨?_, ?_, ?_⟩
  · simp only [AABB.Raycast]
    exact slab_result_sentinel _ _
  · simp only [OBB.Raycast]
    split
    · exact slab_result_sentinel _ _
    · exact Or.inl rfl
  · simp only [Plane.Raycast]
    split_ifs with h1 h2
    · exact Or.inl rfl
    · exact Or.inr h2
    · exact Or.inl rfl

/-! ## C16: plane raycast -/

theorem min_add_sub_eq_sub_abs (p s : α) : min (p + s) (p - s) = p - |s| := by
  rcases le_total 0 s with h | h
  · rw [abs_of_nonneg h, min_eq_right (by linarith)]
  · rw [abs_of_nonpos h, min_eq_left (by linarith)]
    ring

theorem max_add_sub_eq_add_abs (p s : α) : max (p + s) (p - s) = p + |s| := by
  rcases le_total 0 s with h | h
  · rw [abs_of_nonneg h, max_eq_left (by linarith)]
  · rw [abs_of_nonpos h, max_eq_right (by linarith)]
    ring

/-- C18: for every AABB, also one whose stored size has negative components,
GetMin is `position - |size|` and GetMax is `position + |size|` on each axis, so
GetMin ≤ GetMax on all three axes. -/
theorem C18_GetMin_GetMax_are_position_minus_plus_abs_size (aabb : AABB α) :
    GetMin aabb = aabb.position - ⟨|aabb.size.x|, |aabb.size.y|, |aabb.size.z|⟩ ∧
    GetMax aabb = aabb.position + ⟨|aabb.size.x|, |aabb.size.y|, |aabb.size.z|⟩ ∧
    (GetMin aabb).x ≤ (GetMax aabb).x ∧ (GetMin aabb).y ≤ (GetMax aabb).y ∧
    (GetMin aabb).z ≤ (GetMax aabb).z := by
  refine ⟨?_, ?_, GetMin_le_GetMax aabb⟩
  · simp only [GetMin, vec3.add_def, vec3.sub_def, min_add_sub_eq_sub_abs]
  · simp only [GetMax, vec3.add_def, vec3.sub_def, max_add_sub_eq_add_abs]

/-! ## C19: AABB raycast, ray parallel to a slab -/

/-- C19: a ray whose direction component along a world axis passes `CMP(·, 0)`
and whose origin lies outside the box's slab on that axis is claimed to miss.
The source only replaces the divisor by 0.00001 and has no test on the origin:
for the box centred at the origin with half-extents (1,1,1) and the ray from
(-3/2,0,-50001) with direction (0,0,1), whose x component is zero and whose
origin has x = -3/2 below the slab [-1,1], it returns 50000. -/
theorem C19_Raycast_AABB_parallel_outside_slab_returns_hit :
    CMP (⟨⟨-3 / 2, 0, -50001⟩, ⟨0, 0, 1⟩⟩ : Ray ℚ).direction.x 0 = true ∧
    (⟨⟨-3 / 2, 0, -50001⟩, ⟨0, 0, 1⟩⟩ : Ray ℚ).origin.x <
      (GetMin (⟨⟨0, 0, 0⟩, ⟨1, 1, 1⟩⟩ : AABB ℚ)).x ∧
    MagnitudeSq (⟨⟨-3 / 2, 0, -50001⟩, ⟨0, 0, 1⟩⟩ : Ray ℚ).direction = 1 ∧
    (⟨⟨0, 0, 0⟩, ⟨1, 1, 1⟩⟩ : AABB ℚ).Raycast ⟨⟨-3 / 2, 0, -50001⟩, ⟨0, 0, 1⟩⟩ = 50000 ∧
    ¬ InClosedBox ((⟨⟨-3 / 2, 0, -50001⟩, ⟨0, 0, 1⟩⟩ : Ray ℚ).origin +
        (⟨⟨-3 / 2, 0, -50001⟩, ⟨0, 0, 1⟩⟩ : Ray ℚ).direction * (50000 : ℚ))
      (⟨⟨0, 0, 0⟩, ⟨1, 1, 1⟩⟩ : AABB ℚ) := by
  refine ⟨?_, ?_, ?_, ?_, ?_⟩
  · norm_num [CMP, FLT_EPSILON]
  · norm_num [GetMin]
  · norm_num [MagnitudeSq, Dot]
  · norm_num [AABB.Raycast, CMP, FLT_EPSILON, GetMin, GetMax]
  · norm_num [InClosedBox, GetMin, GetMax]

/-! ## C20: OBB raycast, ray parallel to a slab -/

/-- C20: a ray whose direction component along a local axis passes `CMP(·, 0)`
and whose origin lies outside the box's slab on that axis is claimed to miss, on
each axis and on either side.  The second test of the source's early exit reads
`e.x` on every axis: for the unit cube with identity orientation at the origin
and the ray with direction (0,0,1), the origin (0,3/2,-50001) above the y slab
gives -1, while the origin (0,-3/2,-50001) below the y slab gives 50000. -/
theorem C20_Raycast_OBB_parallel_below_slab_returns_hit :
    OrthonormalRows (⟨1, 0, 0, 0, 1, 0, 0, 0, 1⟩ : mat3 ℚ) ∧
    NonNegExtents (⟨1, 1, 1⟩ : vec3 ℚ) ∧
    MagnitudeSq (⟨0, 0, 1⟩ : vec3 ℚ) = 1 ∧
    CMP (Dot ((⟨1, 0, 0, 0, 1, 0, 0, 0, 1⟩ : mat3 ℚ).row 1) (⟨0, 0, 1⟩ : vec3 ℚ)) 0 = true ∧
    |Dot ((⟨1, 0, 0, 0, 1, 0, 0, 0, 1⟩ : mat3 ℚ).row 1)
        ((⟨0, -3 / 2, -50001⟩ : vec3 ℚ) - ⟨0, 0, 0⟩)| > (⟨1, 1, 1⟩ : vec3 ℚ).asArray 1 ∧
    (⟨⟨0, 0, 0⟩, ⟨1, 1, 1⟩, ⟨1, 0, 0, 0, 1, 0, 0, 0, 1⟩⟩ : OBB ℚ).Raycast
      ⟨⟨0, -3 / 2, -50001⟩, ⟨0, 0, 1⟩⟩ = 50000 ∧
    (⟨⟨0, 0, 0⟩, ⟨1, 1, 1⟩, ⟨1, 0, 0, 0, 1, 0, 0, 0, 1⟩⟩ : OBB ℚ).Raycast
      ⟨⟨0, 3 / 2, -50001⟩, ⟨0, 0, 1⟩⟩ = -1 := by
  refine ⟨?_, ?_, ?_, ?_, ?_, ?_, ?_⟩
  · norm_num [OrthonormalRows, mat3.row, Dot, mat3.asArray]
  · norm_num [NonNegExtents]
  · norm_num [MagnitudeSq, Dot]
  · norm_num [CMP, FLT_EPSILON, mat3.row, Dot, mat3.asArray]
  · norm_num [mat3.row, Dot, mat3.asArray, vec3.asArray, abs_of_neg]
  · norm_num [OBB.Raycast, CMP, FLT_EPSILON, Dot, mat3.asArray, vec3.asArray]
  · norm_num [OBB.Raycast, CMP, FLT_EPSILON, Dot, mat3.asArray, vec3.asArray]

/-! ## Projection intervals in closed form -/

theorem Dot_add_right (u v w : vec3 α) : Dot u (v + w) = Dot u v + Dot u w := by
  simp only [Dot, vec3.add_def]
  ring

theorem Dot_sub_right (u v w : vec3 α) : Dot u (v - w) = Dot u v - Dot u w := by
  simp only [Dot, vec3.sub_def]
  ring

theorem Dot_mul_right (u v : vec3 α) (k : α) : Dot u (v * k) = Dot u v * k := by
  simp only [Dot, vec3.mul_def]
  ring

/-- The projection loop returns a lower end that is below the starting lower end
and below every projected vertex, and that is one of them. -/
theorem foldl_projectionStep_min (axis : vec3 α) (vs : List (vec3 α)) :
    ∀ r : Interval α,
      ((vs.foldl (projectionStep axis) r).min ≤ r.min ∧
        ∀ v ∈ vs, (vs.foldl (projectionStep axis) r).min ≤ Dot axis v) ∧
      ((vs.foldl (projectionStep axis) r).min = r.min ∨
        ∃ v ∈ vs, (vs.foldl (projectionStep axis) r).min = Dot axis v) := by
  induction vs with
  | nil =>
    intro r
    exact ⟨⟨le_refl _, fun v hv => absurd hv (List.not_mem_nil v)⟩, Or.inl rfl⟩
  | cons w ws ih =>
    intro r
    obtain ⟨⟨h1, h2⟩, h3⟩ := ih (projectionStep axis r w)
    have hstep1 : (projectionStep axis r w).min ≤ r.min := by
      simp only [projectionStep]
      split_ifs with h
      · exact le_of_lt h
      · exact le_refl _
    have hstep2 : (projectionStep axis r w).min ≤ Dot axis w := by
      simp only [projectionStep]
      split_ifs with h
      · exact le_refl _
      · exact not_lt.mp h
    have hstep3 : (projectionStep axis r w).min = r.min ∨
        (projectionStep axis r w).min = Dot axis w := by
      simp only [projectionStep]
      split_ifs with h
      · exact Or.inr rfl
      · exact Or.inl rfl
    simp only [List.foldl_cons]
    refine ⟨⟨le_trans h1 hstep1, ?_⟩, ?_⟩
    · intro v hv
      rcases List.mem_cons.mp hv with rfl | hv
      · exact le_trans h1 hstep2
      · exact h2 v hv
    · rcases h3 with h3 | ⟨v, hv, h3⟩
      · rcases hstep3 with h4 | h4
        · exact Or.inl (h3.trans h4)
        · exact Or.inr ⟨w, List.mem_cons_self _ _, h3.trans h4⟩
      · exact Or.inr ⟨v, List.mem_cons_of_mem _ hv, h3⟩

/-- The projection loop returns an upper end that is above the starting upper
end and above every projected vertex, and that is one of them. -/
theorem foldl_projectionStep_max (axis : vec3 α) (vs : List (vec3 α)) :
    ∀ r : Interval α,
      (r.max ≤ (vs.foldl (projectionStep axis) r).max ∧
        ∀ v ∈ vs, Dot axis v ≤ (vs.foldl (projectionStep axis) r).max) ∧
      ((vs.foldl (projectionStep axis) r).max = r.max ∨
        ∃ v ∈ vs, (vs.foldl (projectionStep axis) r).max = Dot axis v) := by
  induction vs with
  | nil =>
    intro r
    exact ⟨⟨le_refl _, fun v hv => absurd hv (List.not_mem_nil v)⟩, Or.inl rfl⟩
  | cons w ws ih =>
    intro r
    obtain ⟨⟨h1, h2⟩, h3⟩ := ih (projectionStep axis r w)
    have hstep1 : r.max ≤ (projectionStep axis r w).max := by
      simp only [projectionStep, gt_iff_lt]
      split_ifs with h
      · exact le_of_lt h
      · exact le_refl _
    have hstep2 : Dot axis w ≤ (projectionStep axis r w).max := by
      simp only [projectionStep, gt_iff_lt]
      split_ifs with h
      · exact le_refl _
      · exact not_lt.mp h
    have hstep3 : (projectionStep axis r w).max = r.max ∨
        (projectionStep axis r w).max = Dot axis w := by
      simp only [projectionStep, gt_iff_lt]
      split_ifs with h
      · exact Or.inr rfl
      · exact Or.inl rfl
    simp only [List.foldl_cons]
    refine ⟨⟨le_trans hstep1 h1, ?_⟩, ?_⟩
    · intro v hv
      rcases List.mem_cons.mp hv with rfl | hv
      · exact le_trans hstep2 h1
      · exact h2 v hv
    · rcases h3 with h3 | ⟨v, hv, h3⟩
      · rcases hstep3 with h4 | h4
        · exact Or.inl (h3.trans h4)
        · exact Or.inr ⟨w, List.mem_cons_self _ _, h3.trans h4⟩
      · exact Or.inr ⟨v, List.mem_cons_of_mem _ hv, h3⟩

/-- `GetInterval(obb, axis)` as the projection loop over the eight vertices,
written with the rows of the orientation. -/
theorem OBB_GetInterval_eq_foldl (obb : OBB α) (axis : vec3 α) :
    obb.GetInterval axis =
      List.foldl (projectionStep axis)
        ⟨Dot axis (obb.position + obb.orientation.row 0 * obb.size.x +
            obb.orientation.row 1 * obb.size.y + obb.orientation.row 2 * obb.size.z),
          Dot axis (obb.position + obb.orientation.row 0 * obb.size.x +
            obb.orientation.row 1 * obb.size.y + obb.orientation.row 2 * obb.size.z)⟩
        [obb.position - obb.orientation.row 0 * obb.size.x +
            obb.orientation.row 1 * obb.size.y + obb.orientation.row 2 * obb.size.z,
         obb.position + obb.orientation.row 0 * obb.size.x -
            obb.orientation.row 1 * obb.size.y + obb.orientation.row 2 * obb.size.z,
         obb.position + obb.orientation.row 0 * obb.size.x +
            obb.orientation.row 1 * obb.size.y - obb.orientation.row 2 * obb.size.z,
         obb.position - obb.orientation.row 0 * obb.size.x -
            obb.orientation.row 1 * obb.size.y - obb.orientation.row 2 * obb.size.z,
         obb.position + obb.orientation.row 0 * obb.size.x -
            obb.orientation.row 1 * obb.size.y - obb.orientation.row 2 * obb.size.z,
         obb.position - obb.orientation.row 0 * obb.size.x +
            obb.orientation.row 1 * obb.size.y - obb.orientation.row 2 * obb.size.z,
         obb.position - obb.orientation.row 0 * obb.size.x -
            obb.orientation.row 1 * obb.size.y + obb.orientation.row 2 * obb.size.z] := rfl

/-- `GetInterval(aabb, axis)` as the projection loop over the eight corners. -/
theorem AABB_GetInterval_eq_foldl (aabb : AABB α) (axis : vec3 α) :
    aabb.GetInterval axis =
      List.foldl (projectionStep axis)
        ⟨Dot axis ⟨(GetMin aabb).x, (GetMax aabb).y, (GetMax aabb).z⟩,
          Dot axis ⟨(GetMin aabb).x, (GetMax aabb).y, (GetMax aabb).z⟩⟩
        [⟨(GetMin aabb).x, (GetMax aabb).y, (GetMin aabb).z⟩,
         ⟨(GetMin aabb).x, (GetMin aabb).y, (GetMax aabb).z⟩,
         ⟨(GetMin aabb).x, (GetMin aabb).y, (GetMin aabb).z⟩,
         ⟨(GetMax aabb).x, (GetMax aabb).y, (GetMax aabb).z⟩,
         ⟨(GetMax aabb).x, (GetMax aabb).y, (GetMin aabb).z⟩,
         ⟨(GetMax aabb).x, (GetMin aabb).y, (GetMax aabb).z⟩,
         ⟨(GetMax aabb).x, (GetMin aabb).y, (GetMin aabb).z⟩] := rfl

/-- Among the eight sums `c ± a ± b ± d`, a number below all of them that equals
one of them is `c - (|a| + |b| + |d|)`. -/
theorem eq_sub_abs_of_sign_sums (c a b d m : α)
    (h1 : m ≤ c + a + b + d) (h2 : m ≤ c - a + b + d) (h3 : m ≤ c + a - b + d)
    (h4 : m ≤ c + a + b - d) (h5 : m ≤ c - a - b - d) (h6 : m ≤ c + a - b - d)
    (h7 : m ≤ c - a + b - d) (h8 : m ≤ c - a - b + d)
    (hatt : m = c + a + b + d ∨ m = c - a + b + d ∨ m = c + a - b + d ∨ m = c + a + b - d ∨
      m = c - a - b - d ∨ m = c + a - b - d ∨ m = c - a + b - d ∨ m = c - a - b + d) :
    m = c - (|a| + |b| + |d|) := by
  apply le_antisymm
  · rcases abs_cases a with ⟨ha, _⟩ | ⟨ha, _⟩ <;> rcases abs_cases b with ⟨hb, _⟩ | ⟨hb, _⟩ <;>
      rcases abs_cases d with ⟨hd, _⟩ | ⟨hd, _⟩ <;> rw [ha, hb, hd] <;> linarith
  · have ha1 := le_abs_self a
    have ha2 := neg_abs_le a
    have hb1 := le_abs_self b
    have hb2 := neg_abs_le b
    have hd1 := le_abs_self d
    have hd2 := neg_abs_le d
    rcases hatt with h | h | h | h | h | h | h | h <;> rw [h] <;> linarith

/-- Among the eight sums `c ± a ± b ± d`, a number above all of them that equals
one of them is `c + (|a| + |b| + |d|)`. -/
theorem eq_add_abs_of_sign_sums (c a b d m : α)
    (h1 : c + a + b + d ≤ m) (h2 : c - a + b + d ≤ m) (h3 : c + a - b + d ≤ m)
    (h4 : c + a + b - d ≤ m) (h5 : c - a - b - d ≤ m) (h6 : c + a - b - d ≤ m)
    (h7 : c - a + b - d ≤ m) (h8 : c - a - b + d ≤ m)
    (hatt : m = c + a + b + d ∨ m = c - a + b + d ∨ m = c + a - b + d ∨ m = c + a + b - d ∨
      m = c - a - b - d ∨ m = c + a - b - d ∨ m = c - a + b - d ∨ m = c - a - b + d) :
    m = c + (|a| + |b| + |d|) := by
  apply le_antisymm
  · have ha1 := le_abs_self a
    have ha2 := neg_abs_le a
    have hb1 := le_abs_self b
    have hb2 := neg_abs_le b
    have hd1 := le_abs_self d
    have hd2 := neg_abs_le d
    rcases hatt with h | h | h | h | h | h | h | h <;> rw [h] <;> linarith
  · rcases abs_cases a with ⟨ha, _⟩ | ⟨ha, _⟩ <;> rcases abs_cases b with ⟨hb, _⟩ | ⟨hb, _⟩ <;>
      rcases abs_cases d with ⟨hd, _⟩ | ⟨hd, _⟩ <;> rw [ha, hb, hd] <;> linarith

/-- `GetInterval(obb, axis)` in closed form: the projection of the centre minus
and plus the projected half-width `Σ |dot(axis, row_i) * size_i|`. -/
theorem OBB_GetInterval_closed_form (obb : OBB α) (axis : vec3 α) :
    (obb.GetInterval axis).min = Dot axis obb.position -
      (|Dot axis (obb.orientation.row 0) * obb.size.x| +
        |Dot axis (obb.orientation.row 1) * obb.size.y| +
        |Dot axis (obb.orientation.row 2) * obb.size.z|) ∧
    (obb.GetInterval axis).max = Dot axis obb.position +
      (|Dot axis (obb.orientation.row 0) * obb.size.x| +
        |Dot axis (obb.orientation.row 1) * obb.size.y| +
        |Dot axis (obb.orientation.row 2) * obb.size.z|) := by
  rw [OBB_GetInterval_eq_foldl]
  constructor
  · obtain ⟨⟨h0, hle⟩, hatt⟩ := foldl_projectionStep_min axis
      [obb.position - obb.orientation.row 0 * obb.size.x +
          obb.orientation.row 1 * obb.size.y + obb.orientation.row 2 * obb.size.z,
       obb.position + obb.orientation.row 0 * obb.size.x -
          obb.orientation.row 1 * obb.size.y + obb.orientation.row 2 * obb.size.z,
       obb.position + obb.orientation.row 0 * obb.size.x +
          obb.orientation.row 1 * obb.size.y - obb.orientation.row 2 * obb.size.z,
       obb.position - obb.orientation.row 0 * obb.size.x -
          obb.orientation.row 1 * obb.size.y - obb.orientation.row 2 * obb.size.z,
       obb.position + obb.orientation.row 0 * obb.size.x -
          obb.orientation.row 1 * obb.size.y - obb.orientation.row 2 * obb.size.z,
       obb.position - obb.orientation.row 0 * obb.size.x +
          obb.orientation.row 1 * obb.size.y - obb.orientation.row 2 * obb.size.z,
       obb.position - obb.orientation.row 0 * obb.size.x -
          obb.orientation.row 1 * obb.size.y + obb.orientation.row 2 * obb.size.z]
      ⟨Dot axis (obb.position + obb.orientation.row 0 * obb.size.x +
          obb.orientation.row 1 * obb.size.y + obb.orientation.row 2 * obb.size.z),
        Dot axis (obb.position + obb.orientation.row 0 * obb.size.x +
          obb.orientation.row 1 * obb.size.y + obb.orientation.row 2 * obb.size.z)⟩
    simp only [List.mem_cons, List.mem_singleton, List.not_mem_nil, or_false, forall_eq_or_imp,
      forall_eq, exists_eq_or_imp, exists_eq_left, Dot_add_right, Dot_sub_right,
      Dot_mul_right] at h0 hle hatt ⊢
    obtain ⟨l1, l2, l3, l4, l5, l6, l7⟩ := hle
    exact eq_sub_abs_of_sign_sums _ _ _ _ _ h0 l1 l2 l3 l4 l5 l6 l7 hatt
  · obtain ⟨⟨h0, hle⟩, hatt⟩ := foldl_projectionStep_max axis
      [obb.position - obb.orientation.row 0 * obb.size.x +
          obb.orientation.row 1 * obb.size.y + obb.orientation.row 2 * obb.size.z,
       obb.position + obb.orientation.row 0 * obb.size.x -
          obb.orientation.row 1 * obb.size.y + obb.orientation.row 2 * obb.size.z,
       obb.position + obb.orientation.row 0 * obb.size.x +
          obb.orientation.row 1 * obb.size.y - obb.orientation.row 2 * obb.size.z,
       obb.position - obb.orientation.row 0 * obb.size.x -
          obb.orientation.row 1 * obb.size.y - obb.orientation.row 2 * obb.size.z,
       obb.position + obb.orientation.row 0 * obb.size.x -
          obb.orientation.row 1 * obb.size.y - obb.orientation.row 2 * obb.size.z,
       obb.position - obb.orientation.row 0 * obb.size.x +
          obb.orientation.row 1 * obb.size.y - obb.orientation.row 2 * obb.size.z,
       obb.position - obb.orientation.row 0 * obb.size.x -
          obb.orientation.row 1 * obb.size.y + obb.orientation.row 2 * obb.size.z]
      ⟨Dot axis (obb.position + obb.orientation.row 0 * obb.size.x +
          obb.orientation.row 1 * obb.size.y + obb.orientation.row 2 * obb.size.z),
        Dot axis (obb.position + obb.orientation.row 0 * obb.size.x +
          obb.orientation.row 1 * obb.size.y + obb.orientation.row 2 * obb.size.z)⟩
    simp only [List.mem_cons, List.mem_singleton, List.not_mem_nil, or_false, forall_eq_or_imp,
      forall_eq, exists_eq_or_imp, exists_eq_left, Dot_add_right, Dot_sub_right,
      Dot_mul_right] at h0 hle hatt ⊢
    obtain ⟨l1, l2, l3, l4, l5, l6, l7⟩ := hle
    exact eq_add_abs_of_sign_sums _ _ _ _ _ h0 l1 l2 l3 l4 l5 l6 l7 hatt

theorem GetMin_components (aabb : AABB α) :
    (GetMin aabb).x = aabb.position.x - |aabb.size.x| ∧
    (GetMin aabb).y = aabb.position.y - |aabb.size.y| ∧
    (GetMin aabb).z = aabb.position.z - |aabb.size.z| := by
  simp only [GetMin, vec3.add_def, vec3.sub_def, min_add_sub_eq_sub_abs, and_self]

theorem GetMax_components (aabb : AABB α) :
    (GetMax aabb).x = aabb.position.x + |aabb.size.x| ∧
    (GetMax aabb).y = aabb.position.y + |aabb.size.y| ∧
    (GetMax aabb).z = aabb.position.z + |aabb.size.z| := by
  simp only [GetMax, vec3.add_def, vec3.sub_def, max_add_sub_eq_add_abs, and_self]

/-- `GetInterval(aabb, axis)` in closed form: the projection of the centre minus
and plus the projected half-width `Σ |axis.c| * |size.c|`. -/
theorem AABB_GetInterval_closed_form (aabb : AABB α) (axis : vec3 α) :
    (aabb.GetInterval axis).min = Dot axis aabb.position -
      (|axis.x| * |aabb.size.x| + |axis.y| * |aabb.size.y| + |axis.z| * |aabb.size.z|) ∧
    (aabb.GetInterval axis).max = Dot axis aabb.position +
      (|axis.x| * |aabb.size.x| + |axis.y| * |aabb.size.y| + |axis.z| * |aabb.size.z|) := by
  obtain ⟨ix, iy, iz⟩ := GetMin_components aabb
  obtain ⟨ax, ay, az⟩ := GetMax_components aabb
  have ex : |axis.x| * |aabb.size.x| = abs (axis.x * abs aabb.size.x) := by
    rw [abs_mul, abs_abs]
  have ey : |axis.y| * |aabb.size.y| = abs (axis.y * abs aabb.size.y) := by
    rw [abs_mul, abs_abs]
  have ez : |axis.z| * |aabb.size.z| = abs (axis.z * abs aabb.size.z) := by
    rw [abs_mul, abs_abs]
  rw [AABB_GetInterval_eq_foldl, ex, ey, ez]
  constructor
  · obtain ⟨⟨h0, hle⟩, hatt⟩ := foldl_projectionStep_min axis
      [⟨(GetMin aabb).x, (GetMax aabb).y, (GetMin aabb).z⟩,
       ⟨(GetMin aabb).x, (GetMin aabb).y, (GetMax aabb).z⟩,
       ⟨(GetMin aabb).x, (GetMin aabb).y, (GetMin aabb).z⟩,
       ⟨(GetMax aabb).x, (GetMax aabb).y, (GetMax aabb).z⟩,
       ⟨(GetMax aabb).x, (GetMax aabb).y, (GetMin aabb).z⟩,
       ⟨(GetMax aabb).x, (GetMin aabb).y, (GetMax aabb).z⟩,
       ⟨(GetMax aabb).x, (GetMin aabb).y, (GetMin aabb).z⟩]
      ⟨Dot axis ⟨(GetMin aabb).x, (GetMax aabb).y, (GetMax aabb).z⟩,
        Dot axis ⟨(GetMin aabb).x, (GetMax aabb).y, (GetMax aabb).z⟩⟩
    simp only [List.mem_cons, List.mem_singleton, List.not_mem_nil, or_false, forall_eq_or_imp,
      forall_eq, exists_eq_or_imp, exists_eq_left, Dot, ix, iy, iz, ax, ay, az]
      at h0 hle hatt ⊢
    obtain ⟨l1, l2, l3, l4, l5, l6, l7⟩ := hle
    refine eq_sub_abs_of_sign_sums _ _ _ _ _ (by linarith) (by linarith) (by linarith)
      (by linarith) (by linarith) (by linarith) (by linarith) (by linarith) ?_
    rcases hatt with h | h | h | h | h | h | h | h
    · exact Or.inr (Or.inl (by linarith))
    · exact Or.inr (Or.inr (Or.inr (Or.inr (Or.inr (Or.inr (Or.inl (by linarith)))))))
    · exact Or.inr (Or.inr (Or.inr (Or.inr (Or.inr (Or.inr (Or.inr (by linarith)))))))
    · exact Or.inr (Or.inr (Or.inr (Or.inr (Or.inl (by linarith)))))
    · exact Or.inl (by linarith)
    · exact Or.inr (Or.inr (Or.inr (Or.inl (by linarith))))
    · exact Or.inr (Or.inr (Or.inl (by linarith)))
    · exact Or.inr (Or.inr (Or.inr (Or.inr (Or.inr (Or.inl (by linarith))))))
  · obtain ⟨⟨h0, hle⟩, hatt⟩ := foldl_projectionStep_max axis
      [⟨(GetMin aabb).x, (GetMax aabb).y, (GetMin aabb).z⟩,
       ⟨(GetMin aabb).x, (GetMin aabb).y, (GetMax aabb).z⟩,
       ⟨(GetMin aabb).x, (GetMin aabb).y, (GetMin aabb).z⟩,
       ⟨(GetMax aabb).x, (GetMax aabb).y, (GetMax aabb).z⟩,
       ⟨(GetMax aabb).x, (GetMax aabb).y, (GetMin aabb).z⟩,
       ⟨(GetMax aabb).x, (GetMin aabb).y, (GetMax aabb).z⟩,
       ⟨(GetMax aabb).x, (GetMin aabb).y, (GetMin aabb).z⟩]
      ⟨Dot axis ⟨(GetMin aabb).x, (GetMax aabb).y, (GetMax aabb).z⟩,
        Dot axis ⟨(GetMin aabb).x, (GetMax aabb).y, (GetMax aabb).z⟩⟩
    simp only [List.mem_cons, List.mem_singleton, List.not_mem_nil, or_false, forall_eq_or_imp,
      forall_eq, exists_eq_or_imp, exists_eq_left, Dot, ix, iy, iz, ax, ay, az]
      at h0 hle hatt ⊢
    obtain ⟨l1, l2, l3, l4, l5, l6, l7⟩ := hle
    refine eq_add_abs_of_sign_sums _ _ _ _ _ (by linarith) (by linarith) (by linarith)
      (by linarith) (by linarith) (by linarith) (by linarith) (by linarith) ?_
    rcases hatt with h | h | h | h | h | h | h | h
    · exact Or.inr (Or.inl (by linarith))
    · exact Or.inr (Or.inr (Or.inr (Or.inr (Or.inr (Or.inr (Or.inl (by linarith)))))))
    · exact Or.inr (Or.inr (Or.inr (Or.inr (Or.inr (Or.inr (Or.inr (by linarith)))))))
    · exact Or.inr (Or.inr (Or.inr (Or.inr (Or.inl (by linarith)))))
    · exact Or.inl (by linarith)
    · exact Or.inr (Or.inr (Or.inr (Or.inl (by linarith))))
    · exact Or.inr (Or.inr (Or.inl (by linarith)))
    · exact Or.inr (Or.inr (Or.inr (Or.inr (Or.inr (Or.inl (by linarith))))))

/-! ## C21: box against plane and the projection interval -/

/-- Orthonormal rows of a 3×3 matrix give orthonormal columns. -/
theorem columns_orthonormal_of_rows (m : mat3 α) (h : OrthonormalRows m) :
    (m._11 * m._11 + m._21 * m._21 + m._31 * m._31 = 1 ∧
      m._12 * m._12 + m._22 * m._22 + m._32 * m._32 = 1 ∧
      m._13 * m._13 + m._23 * m._23 + m._33 * m._33 = 1) ∧
    (m._11 * m._12 + m._21 * m._22 + m._31 * m._32 = 0 ∧
      m._11 * m._13 + m._21 * m._23 + m._31 * m._33 = 0 ∧
      m._12 * m._13 + m._22 * m._23 + m._32 * m._33 = 0) := by
  obtain ⟨h00, h11, h22, h01, h02, h12⟩ := h
  simp only [Dot, mat3.row, mat3.asArray] at h00 h11 h22 h01 h02 h12
  have hM : (!![m._11, m._12, m._13; m._21, m._22, m._23; m._31, m._32, m._33] :
      Matrix (Fin 3) (Fin 3) α) *
      (!![m._11, m._21, m._31; m._12, m._22, m._32; m._13, m._23, m._33] :
      Matrix (Fin 3) (Fin 3) α) = 1 := by
    ext i j
    fin_cases i <;> fin_cases j <;>
      simp [Matrix.mul_apply, Fin.sum_univ_three] <;> linarith
  have hM2 := Matrix.mul_eq_one_comm.mp hM
  have e00 := congrFun (congrFun hM2 0) 0
  have e11 := congrFun (congrFun hM2 1) 1
  have e22 := congrFun (congrFun hM2 2) 2
  have e01 := congrFun (congrFun hM2 0) 1
  have e02 := congrFun (congrFun hM2 0) 2
  have e12 := congrFun (congrFun hM2 1) 2
  simp [Matrix.mul_apply, Fin.sum_univ_three] at e00 e11 e22 e01 e02 e12
  exact ⟨⟨e00, e11, e22⟩, ⟨e01, e02, e12⟩⟩

/-- With orthonormal rows, the projection of `w` on any axis is the sum over
the rows of (projection of `w` on the row) times (projection of the axis on the
row). -/
theorem Dot_eq_sum_over_rows (m : mat3 α) (h : OrthonormalRows m) (axis w : vec3 α) :
    Dot axis w = Dot w (m.row 0) * Dot axis (m.row 0) + Dot w (m.row 1) * Dot axis (m.row 1) +
      Dot w (m.row 2) * Dot axis (m.row 2) := by
  obtain ⟨⟨c00, c11, c22⟩, ⟨c01, c02, c12⟩⟩ := columns_orthonormal_of_rows m h
  obtain ⟨ax, ay, az⟩ := axis
  obtain ⟨wx, wy, wz⟩ := w
  simp only [Dot, mat3.row, mat3.asArray]
  linear_combination (-(wx * ax)) * c00 + (-(wy * ay)) * c11 + (-(wz * az)) * c22 +
    (-(wx * ay + wy * ax)) * c01 + (-(wx * az + wz * ax)) * c02 +
    (-(wy * az + wz * ay)) * c12

/-- Every point of an axis-aligned box projects into the box's GetInterval, on
any axis. -/
theorem AABB_projection_mem_GetInterval (aabb : AABB α) (axis : vec3 α) (p : Point α)
    (hp : InClosedBox p aabb) :
    (aabb.GetInterval axis).min ≤ Dot axis p ∧ Dot axis p ≤ (aabb.GetInterval axis).max := by
  obtain ⟨hmin, hmax⟩ := AABB_GetInterval_closed_form aabb axis
  obtain ⟨ix, iy, iz⟩ := GetMin_components aabb
  obtain ⟨mx, my, mz⟩ := GetMax_components aabb
  obtain ⟨⟨hx1, hx2⟩, ⟨hy1, hy2⟩, ⟨hz1, hz2⟩⟩ := hp
  rw [ix] at hx1
  rw [iy] at hy1
  rw [iz] at hz1
  rw [mx] at hx2
  rw [my] at hy2
  rw [mz] at hz2
  have bx : |axis.x * (p.x - aabb.position.x)| ≤ |axis.x| * |aabb.size.x| := by
    rw [abs_mul]
    exact mul_le_mul_of_nonneg_left (abs_le.mpr ⟨by linarith, by linarith⟩) (abs_nonneg _)
  have b_y : |axis.y * (p.y - aabb.position.y)| ≤ |axis.y| * |aabb.size.y| := by
    rw [abs_mul]
    exact mul_le_mul_of_nonneg_left (abs_le.mpr ⟨by linarith, by linarith⟩) (abs_nonneg _)
  have bz : |axis.z * (p.z - aabb.position.z)| ≤ |axis.z| * |aabb.size.z| := by
    rw [abs_mul]
    exact mul_le_mul_of_nonneg_left (abs_le.mpr ⟨by linarith, by linarith⟩) (abs_nonneg _)
  have ex := abs_le.mp bx
  have ey := abs_le.mp b_y
  have ez := abs_le.mp bz
  rw [hmin, hmax]
  simp only [Dot]
  constructor <;> linarith [ex.1, ex.2, ey.1, ey.2, ez.1, ez.2]

/-- Every point of an oriented box with orthonormal rows projects into the
box's GetInterval, on any axis. -/
theorem OBB_projection_mem_GetInterval (obb : OBB α) (axis : vec3 α) (p : Point α)
    (horth : OrthonormalRows obb.orientation) (hp : InOBB p obb) :
    (obb.GetInterval axis).min ≤ Dot axis p ∧ Dot axis p ≤ (obb.GetInterval axis).max := by
  obtain ⟨hmin, hmax⟩ := OBB_GetInterval_closed_form obb axis
  obtain ⟨h0, h1, h2⟩ := hp
  have hsum := Dot_eq_sum_over_rows obb.orientation horth axis (p - obb.position)
  rw [Dot_sub_right] at hsum
  have b0 : |Dot (p - obb.position) (obb.orientation.row 0) * Dot axis (obb.orientation.row 0)| ≤
      |Dot axis (obb.orientation.row 0) * obb.size.x| := by
    rw [abs_mul, abs_mul, mul_comm, abs_of_nonneg (le_trans (abs_nonneg _) h0)]
    exact mul_le_mul_of_nonneg_left h0 (abs_nonneg _)
  have b1 : |Dot (p - obb.position) (obb.orientation.row 1) * Dot axis (obb.orientation.row 1)| ≤
      |Dot axis (obb.orientation.row 1) * obb.size.y| := by
    rw [abs_mul, abs_mul, mul_comm, abs_of_nonneg (le_trans (abs_nonneg _) h1)]
    exact mul_le_mul_of_nonneg_left h1 (abs_nonneg _)
  have b2 : |Dot (p - obb.position) (obb.orientation.row 2) * Dot axis (obb.orientation.row 2)| ≤
      |Dot axis (obb.orientation.row 2) * obb.size.z| := by
    rw [abs_mul, abs_mul, mul_comm, abs_of_nonneg (le_trans (abs_nonneg _) h2)]
    exact mul_le_mul_of_nonneg_left h2 (abs_nonneg _)
  have e0 := abs_le.mp b0
  have e1 := abs_le.mp b1
  have e2 := abs_le.mp b2
  rw [hmin, hmax]
  constructor <;> linarith [e0.1, e0.2, e1.1, e1.2, e2.1, e2.2]

/-- C22: for an OBB with orthonormal orientation, if AABBOBB(aabb, obb) returns
false then no point lies in both the closed axis-aligned box and the oriented
box.  This holds in particular for non-negative half-extents; with a negative
half-extent the oriented box has no point at all. -/
theorem C22_AABBOBB_false_implies_disjoint (aabb : AABB α) (obb : OBB α)
    (horth : OrthonormalRows obb.orientation) (hfalse : AABBOBB aabb obb = false) :
    ¬ ∃ p : Point α, InClosedBox p aabb ∧ InOBB p obb := by
  rintro ⟨p, hpa, hpo⟩
  have hall : AABBOBB aabb obb = true := by
    unfold AABBOBB
    simp only [List.all_eq_true]
    intro axis _
    obtain ⟨a1, a2⟩ := AABB_projection_mem_GetInterval aabb axis p hpa
    obtain ⟨b1, b2⟩ := OBB_projection_mem_GetInterval obb axis p horth hpo
    simp only [AABB.OverlapOnAxis, decide_eq_true_eq]
    exact ⟨le_trans b1 a2, le_trans a1 b2⟩
  rw [hall] at hfalse
  exact Bool.noConfusion hfalse

/-- C22 at the AABB centred at the origin with half-extents (1,1,1) and the
rotated OBB centred at (10,0,0) with half-extents (1,1,1): AABBOBB is false and
the boxes share no point. -/
theorem C22_AABBOBB_false_implies_disjoint_witness :
    OrthonormalRows (⟨⟨10, 0, 0⟩, ⟨1, 1, 1⟩,
      ⟨2 / 3, -2 / 3, 1 / 3, 1 / 3, 2 / 3, 2 / 3, 2 / 3, 1 / 3, -2 / 3⟩⟩ : OBB ℚ).orientation ∧
    NonNegExtents (⟨⟨10, 0, 0⟩, ⟨1, 1, 1⟩,
      ⟨2 / 3, -2 / 3, 1 / 3, 1 / 3, 2 / 3, 2 / 3, 2 / 3, 1 / 3, -2 / 3⟩⟩ : OBB ℚ).size ∧
    AABBOBB (⟨⟨0, 0, 0⟩, ⟨1, 1, 1⟩⟩ : AABB ℚ)
      ⟨⟨10, 0, 0⟩, ⟨1, 1, 1⟩,
        ⟨2 / 3, -2 / 3, 1 / 3, 1 / 3, 2 / 3, 2 / 3, 2 / 3, 1 / 3, -2 / 3⟩⟩ = false ∧
    ¬ ∃ p : Point ℚ, InClosedBox p (⟨⟨0, 0, 0⟩, ⟨1, 1, 1⟩⟩ : AABB ℚ) ∧
      InOBB p (⟨⟨10, 0, 0⟩, ⟨1, 1, 1⟩,
        ⟨2 / 3, -2 / 3, 1 / 3, 1 / 3, 2 / 3, 2 / 3, 2 / 3, 1 / 3, -2 / 3⟩⟩ : OBB ℚ) := by
  have hfalse : AABBOBB (⟨⟨0, 0, 0⟩, ⟨1, 1, 1⟩⟩ : AABB ℚ)
      ⟨⟨10, 0, 0⟩, ⟨1, 1, 1⟩,
        ⟨2 / 3, -2 / 3, 1 / 3, 1 / 3, 2 / 3, 2 / 3, 2 / 3, 1 / 3, -2 / 3⟩⟩ = false := by
    norm_num [AABBOBB, AABB.OverlapOnAxis, AABB.GetInterval, OBB.GetInterval, Dot, Cross,
      mat3.asArray, vec3.asArray, GetMin, GetMax]
  have horth : OrthonormalRows (⟨⟨10, 0, 0⟩, ⟨1, 1, 1⟩,
      ⟨2 / 3, -2 / 3, 1 / 3, 1 / 3, 2 / 3, 2 / 3, 2 / 3, 1 / 3, -2 / 3⟩⟩ : OBB ℚ).orientation := by
    norm_num [OrthonormalRows, mat3.row, Dot, mat3.asArray]
  exact ⟨horth, by norm_num [NonNegExtents], hfalse,
    C22_AABBOBB_false_implies_disjoint _ _ horth hfalse⟩

end Geometry3D
